import Mathlib

/-!
Shallow embedding of the core algorithms of
src/Telegram/SourceFiles/history/media/history_media_poll.cpp :
the nice-percentage allocator (CountNicePercent / AdjustPercentCount) and
the answers-animation state machine of HistoryPoll (updateTexts and the
functions it calls).
-/

/-- Maximum number of poll options.  Modelled from the spec: the constant
PollData::kMaxOptions is declared in data_poll.h, which is not part of this
repository slice; the spec fixes the bound as small, 10 in practice. -/
def kMaxOptions : Nat := 10

/-- Mirrors struct PercentCounterItem.  Vote counts are non-negative and the
total is positive at every call site, so the C++ int fields stay
non-negative and are embedded as Nat. -/
structure PercentCounterItem where
  index : Nat
  percent : Nat
  remainder : Nat
deriving DecidableEq

/-- Mirrors PercentCounterItem::operator< : larger remainder sorts first;
on equal remainders the smaller percent sorts first. -/
def itemLt (a b : PercentCounterItem) : Prop :=
  b.remainder < a.remainder ∨ (a.remainder = b.remainder ∧ a.percent < b.percent)

instance : DecidableRel itemLt := fun a b =>
  decidable_of_iff
    (b.remainder < a.remainder ∨ (a.remainder = b.remainder ∧ a.percent < b.percent))
    Iff.rfl

/-- The postcondition relation of std::sort run with operator< : an earlier
element is never strictly above a later one. -/
def itemLe (a b : PercentCounterItem) : Prop := ¬ itemLt b a

instance : DecidableRel itemLe := fun a b =>
  decidable_of_iff (¬ itemLt b a) Iff.rfl

instance : IsTotal PercentCounterItem itemLe :=
  ⟨fun a b => by unfold itemLe itemLt; omega⟩

instance : IsTrans PercentCounterItem itemLe :=
  ⟨fun a b c => by unfold itemLe itemLt; omega⟩

/-- The ranges::sort call of AdjustPercentCount, instantiated with insertion
sort.  std::sort only promises some permutation that is pairwise itemLe;
the determinism theorem below shows every such permutation produces the
same final output, so fixing insertion sort here loses nothing. -/
def sortItems (l : List PercentCounterItem) : List PercentCounterItem :=
  List.insertionSort itemLe l

/-- Equality of the (percent, remainder) sorting key: the grouping test of
the inner j loop of AdjustPercentCount. -/
def sameKey (a b : PercentCounterItem) : Bool :=
  a.percent == b.percent && a.remainder == b.remainder

/-- The maximal runs of key-equal items that the two-pointer i/j loop of
AdjustPercentCount walks over the sorted array. -/
def chunksOf : List PercentCounterItem → List (List PercentCounterItem)
  | [] => []
  | x :: xs =>
    match chunksOf xs with
    | [] => [[x]]
    | [] :: gs => [x] :: gs
    | (y :: g) :: gs =>
      if sameKey x y then (x :: y :: g) :: gs else [x] :: (y :: g) :: gs

/-- The ++items[i].percent step applied to one item. -/
def bumpItem (a : PercentCounterItem) : PercentCounterItem :=
  { a with percent := a.percent + 1 }

/-- The distribution loop of AdjustPercentCount: an entire equal group is
incremented when its size fits into the remaining left, otherwise the whole
group is skipped. -/
def adjustChunks : List (List PercentCounterItem) → Int → List PercentCounterItem
  | [], _ => []
  | g :: gs, left =>
    if (g.length : Int) ≤ left then
      g.map bumpItem ++ adjustChunks gs (left - g.length)
    else
      g ++ adjustChunks gs left

/-- The part of AdjustPercentCount that runs after the sort. -/
def distributeLeft (items : List PercentCounterItem) (left : Int) :
    List PercentCounterItem :=
  adjustChunks (chunksOf items) left

/-- Mirrors AdjustPercentCount: sort by operator<, then distribute left. -/
def adjustPercentCount (items : List PercentCounterItem) (left : Int) :
    List PercentCounterItem :=
  distributeLeft (sortItems items) left

/-- One iteration of the zip loop of CountNicePercent filling an item. -/
def itemOf (total : Nat) (i : Nat) (v : Nat) : PercentCounterItem :=
  { index := i
    percent := v * 100 / total
    remainder := v * 100 - v * 100 / total * total }

/-- The zip of votes with ints(0), producing the filled items array. -/
def itemsFrom (total : Nat) : Nat → List Nat → List PercentCounterItem
  | _, [] => []
  | i, v :: vs => itemOf total i v :: itemsFrom total (i + 1) vs

/-- The items array of CountNicePercent for a given votes vector. -/
def itemsOfVotes (votes : List Nat) (total : Nat) : List PercentCounterItem :=
  itemsFrom total 0 votes

/-- Read-back of result[item.index] = item.percent at a given index list. -/
def readOutIdx (idxs : List Nat) (items : List PercentCounterItem) : List Nat :=
  idxs.map fun i =>
    ((items.find? fun a => a.index == i).map PercentCounterItem.percent).getD 0

/-- The final write-back loop result[item.index] = item.percent, read back
as the list of percentages in original option order. -/
def readOut (n : Nat) (items : List PercentCounterItem) : List Nat :=
  readOutIdx (List.range n) items

/-- The initial value of left in CountNicePercent after the filling loop:
100 minus the sum of the base percentages (an int in the C++, possibly
negative for adversarial inputs). -/
def leftOf (votes : List Nat) (total : Nat) : Int :=
  100 - (((itemsOfVotes votes total).map PercentCounterItem.percent).sum : Int)

/-- The base (floor) percentages, element i being votes[i] * 100 / total. -/
def basePercents (votes : List Nat) (total : Nat) : List Nat :=
  votes.map fun v => v * 100 / total

/-- CountNicePercent with the sorted item list passed explicitly, so that
independence from the unstable sort's choice can be stated. -/
def countNicePercentWith (votes : List Nat) (total : Nat)
    (sorted : List PercentCounterItem) : List Nat :=
  let left := leftOf votes total
  let final := if 0 < left ∧ left ≤ (votes.length : Int)
    then distributeLeft sorted left
    else itemsOfVotes votes total
  readOut votes.length final

/-- Mirrors CountNicePercent. -/
def countNicePercent (votes : List Nat) (total : Nat) : List Nat :=
  countNicePercentWith votes total (sortItems (itemsOfVotes votes total))

/-- Modelled from the spec: anim::value from ui/effects/animation_value.h is
not in this repository slice.  Per the spec an animation channel holds a
value interpolated between a start and an end value: constructing it from v
makes v both endpoints, start(t) re-bases the interpolation at the current
value toward t.  Rationals stand in for float64. -/
structure AnimValue where
  fromValue : ℚ
  toValue : ℚ
  current : ℚ
deriving DecidableEq

/-- Construction of anim::value from a single value. -/
def AnimValue.ofValue (v : ℚ) : AnimValue := ⟨v, v, v⟩

/-- anim::value::start(to): interpolate from the current value to a new
target. -/
def AnimValue.restart (a : AnimValue) (target : ℚ) : AnimValue :=
  ⟨a.current, target, a.current⟩

/-- One element of PollData::answers (data_poll.h): only the fields this
file reads.  The opaque QByteArray option id is embedded as Nat. -/
structure PollAnswer where
  option : Nat
  votes : Nat
deriving DecidableEq

/-- The PollData fields read by HistoryPoll::updateTexts and callees. -/
structure PollData where
  version : Nat
  closed : Bool
  votedFlag : Bool
  totalVoters : Nat
  answers : List PollAnswer
deriving DecidableEq

/-- Mirrors HistoryPoll::Answer; text, click handler and ripple are
presentation state with no bearing on the claims.  votesPercentString is
kept as the percent it renders (none for the cleared string). -/
structure Answer where
  option : Nat
  votes : Nat
  votesPercent : Nat
  votesPercentString : Option Nat
  filling : ℚ
deriving DecidableEq

/-- A fresh Answer as built in HistoryPoll::updateAnswers. -/
def Answer.ofOriginal (original : PollAnswer) : Answer :=
  { option := original.option
    votes := 0
    votesPercent := 0
    votesPercentString := none
    filling := 0 }

/-- Mirrors HistoryPoll::AnswerAnimation. -/
structure AnswerAnimation where
  percent : AnimValue
  filling : AnimValue
  opacity : AnimValue
deriving DecidableEq

/-- Mirrors HistoryPoll::AnswersAnimation.  The Ui::Animations::Simple
progress timeline is modelled (from the spec) by its endpoints plus an
active flag; it is inactive on construction and runs 0 to 1 once started. -/
structure AnswersAnimation where
  data : List AnswerAnimation
  progressFrom : ℚ
  progressTo : ℚ
  progressActive : Bool
deriving DecidableEq

/-- The HistoryPoll fields driving the answers animation. -/
structure HistoryPollState where
  pollVersion : Nat
  closed : Bool
  voted : Bool
  totalVotes : Nat
  answers : List Answer
  answersAnimation : Option AnswersAnimation
deriving DecidableEq

/-- Mirrors HistoryPoll::canVote. -/
def HistoryPollState.canVote (s : HistoryPollState) : Bool :=
  !s.voted && !s.closed

/-- Mirrors HistoryPoll::answerVotesChanged. -/
def answerVotesChanged (s : HistoryPollState) (poll : PollData) : Bool :=
  if poll.answers.length != s.answers.length || poll.answers.isEmpty then
    false
  else
    !(s.answers.map Answer.votes == poll.answers.map PollAnswer.votes)

/-- The snapshot one Answer contributes in saveStateInAnimation. -/
def saveAnswerState (can : Bool) (answer : Answer) : AnswerAnimation :=
  { percent := AnimValue.ofValue (if can then 0 else answer.votesPercent)
    filling := AnimValue.ofValue (if can then 0 else answer.filling)
    opacity := AnimValue.ofValue (if can then 0 else 1) }

/-- Mirrors HistoryPoll::saveStateInAnimation: keep an existing snapshot,
otherwise capture the current visual values as animation start points. -/
def saveStateInAnimation (s : HistoryPollState) : HistoryPollState :=
  match s.answersAnimation with
  | some _ => s
  | none =>
    { s with
      answersAnimation := some
        { data := s.answers.map (saveAnswerState s.canVote)
          progressFrom := 0
          progressTo := 0
          progressActive := false } }

/-- Mirrors HistoryPoll::checkAnimationStart, returning the bool result
together with the possibly updated state. -/
def checkAnimationStart (s : HistoryPollState) (poll : PollData) :
    Bool × HistoryPollState :=
  if poll.answers.length != s.answers.length then
    (false, s)
  else
    let result := (s.canVote != (!poll.votedFlag && !poll.closed))
      || answerVotesChanged s poll
    if result then (true, saveStateInAnimation s) else (false, s)

/-- Mirrors HistoryPoll::updateAnswers.  When the option identities are
unchanged only the (untracked) texts are refreshed; otherwise the answers
are rebuilt from the poll data and resetAnswersAnimation drops any
animation. -/
def updateAnswers (s : HistoryPollState) (poll : PollData) : HistoryPollState :=
  if s.answers.map Answer.option == poll.answers.map PollAnswer.option then
    s
  else
    { s with
      answers := poll.answers.map Answer.ofOriginal
      answersAnimation := none }

/-- Mirrors HistoryPoll::updateAnswerVotesFromOriginal.  can is the value of
canVote() at the call, maxVotes the precomputed maximum. -/
def updateAnswerVotesFromOriginal (can : Bool) (maxVotes : Nat)
    (answer : Answer) (original : PollAnswer) (percent : Nat) : Answer :=
  let a :=
    if can then
      { answer with votesPercent := 0, votesPercentString := none }
    else if answer.votesPercentString.isNone || answer.votesPercent != percent then
      { answer with votesPercent := percent, votesPercentString := some percent }
    else
      answer
  { a with
    votes := original.votes
    filling := (original.votes : ℚ) / (maxVotes : ℚ) }

/-- Mirrors HistoryPoll::updateAnswerVotes. -/
def updateAnswerVotes (s : HistoryPollState) (poll : PollData) :
    HistoryPollState :=
  if poll.answers.length != s.answers.length || poll.answers.isEmpty then
    s
  else
    let totalVotes := max 1 poll.totalVoters
    let maxVotes := max 1 ((poll.answers.map PollAnswer.votes).foldr max 0)
    let percents := countNicePercent (poll.answers.map PollAnswer.votes) totalVotes
    { s with
      answers := List.zipWith3 (updateAnswerVotesFromOriginal s.canVote maxVotes)
        s.answers poll.answers percents }

/-- Mirrors HistoryPoll::updateTotalVotes (the label text is untracked). -/
def updateTotalVotes (s : HistoryPollState) (poll : PollData) :
    HistoryPollState :=
  { s with totalVotes := poll.totalVoters }

/-- Mirrors HistoryPoll::updateVotes. -/
def updateVotes (s : HistoryPollState) (poll : PollData) : HistoryPollState :=
  updateTotalVotes (updateAnswerVotes { s with voted := poll.votedFlag } poll) poll

/-- The start() calls of one answer in startAnswersAnimation. -/
def startAnswerAnimation (can : Bool) (answer : Answer)
    (d : AnswerAnimation) : AnswerAnimation :=
  { percent := d.percent.restart (if can then 0 else answer.votesPercent)
    filling := d.filling.restart (if can then 0 else answer.filling)
    opacity := d.opacity.restart (if can then 0 else 1) }

/-- The zip of answers with the animation data in startAnswersAnimation:
entries beyond the shorter list are left untouched. -/
def startAnimData (can : Bool) :
    List Answer → List AnswerAnimation → List AnswerAnimation
  | _, [] => []
  | [], ds => ds
  | a :: as_, d :: ds => startAnswerAnimation can a d :: startAnimData can as_ ds

/-- Mirrors HistoryPoll::startAnswersAnimation. -/
def startAnswersAnimation (s : HistoryPollState) : HistoryPollState :=
  match s.answersAnimation with
  | none => s
  | some anim =>
    { s with
      answersAnimation := some
        { data := startAnimData s.canVote s.answers anim.data
          progressFrom := 0
          progressTo := 1
          progressActive := true } }

/-- Mirrors HistoryPoll::updateTexts (question and subtitle text handling is
untracked presentation state). -/
def updateTexts (s : HistoryPollState) (poll : PollData) : HistoryPollState :=
  if s.pollVersion == poll.version then
    s
  else
    let s1 := { s with pollVersion := poll.version }
    let started := checkAnimationStart s1 poll
    let s3 := { started.2 with closed := poll.closed }
    let s4 := updateAnswers s3 poll
    let s5 := updateVotes s4 poll
    if started.1 then startAnswersAnimation s5 else s5

/-- The per-frame pairing soundness condition: an existing animation has one
entry per stored answer. -/
def animSizeOk (s : HistoryPollState) : Prop :=
  match s.answersAnimation with
  | none => True
  | some anim => anim.data.length = s.answers.length

instance (s : HistoryPollState) : Decidable (animSizeOk s) := by
  unfold animSizeOk
  match s.answersAnimation with
  | none => exact inferInstanceAs (Decidable True)
  | some _ => exact inferInstanceAs (Decidable (_ = _))

/-! Basic facts about keys and grouping. -/

theorem sameKey_eq_true_iff (a b : PercentCounterItem) :
    sameKey a b = true ↔ a.percent = b.percent ∧ a.remainder = b.remainder := by
  simp [sameKey]

theorem sameKey_self (a : PercentCounterItem) : sameKey a a = true := by
  simp [sameKey]

theorem sameKey_congr {a b : PercentCounterItem} (h : sameKey a b = true) :
    sameKey a = sameKey b := by
  obtain ⟨h1, h2⟩ := (sameKey_eq_true_iff a b).mp h
  funext z
  simp [sameKey, h1, h2]

theorem itemLe_antisymm_key {a b : PercentCounterItem}
    (hab : itemLe a b) (hba : itemLe b a) : sameKey a b = true := by
  rw [sameKey_eq_true_iff]
  unfold itemLe itemLt at hab hba
  omega

theorem sameKey_break {x y z : PercentCounterItem} (hxy : itemLe x y)
    (hk : ¬ sameKey x y = true) (hyz : itemLe y z) : ¬ sameKey x z = true := by
  rw [sameKey_eq_true_iff] at hk ⊢
  unfold itemLe itemLt at hxy hyz
  omega

theorem chunksOf_cons_unfold (x : PercentCounterItem)
    (xs : List PercentCounterItem) :
    chunksOf (x :: xs) =
      match chunksOf xs with
      | [] => [[x]]
      | [] :: gs => [x] :: gs
      | (y :: g) :: gs =>
        if sameKey x y then (x :: y :: g) :: gs else [x] :: (y :: g) :: gs := by
  rfl

theorem chunksOf_cons (x : PercentCounterItem) (xs : List PercentCounterItem) :
    chunksOf (x :: xs) =
      (x :: xs.takeWhile (sameKey x)) :: chunksOf (xs.dropWhile (sameKey x)) := by
  induction xs generalizing x with
  | nil => rfl
  | cons y ys ih =>
    rw [chunksOf_cons_unfold, ih y]
    by_cases hk : sameKey x y
    · have hfun : sameKey x = sameKey y := sameKey_congr hk
      simp [hk, List.takeWhile_cons, List.dropWhile_cons, hfun, sameKey_self]
    · simp [hk, List.takeWhile_cons, List.dropWhile_cons, ih y]

theorem chunksOf_flatten (l : List PercentCounterItem) :
    (chunksOf l).flatten = l := by
  induction l with
  | nil => rfl
  | cons x xs ih =>
    rw [chunksOf_cons_unfold]
    cases h : chunksOf xs with
    | nil =>
      rw [h] at ih
      simp only [List.flatten_nil] at ih
      simp [← ih]
    | cons g gs =>
      cases g with
      | nil =>
        rw [h] at ih
        simp only [List.flatten_cons, List.nil_append] at ih
        simp [List.flatten_cons, ih]
      | cons y g' =>
        rw [h] at ih
        by_cases hk : sameKey x y
        · simp only [hk, if_pos rfl, List.flatten_cons] at *
          simp [← List.cons_append, ih]
        · simp only [hk, List.flatten_cons] at *
          simp [ih]

/-! Structural facts about the distribution loop. -/

theorem bumpItem_index (a : PercentCounterItem) :
    (bumpItem a).index = a.index := rfl

theorem adjustChunks_map_index (gs : List (List PercentCounterItem)) :
    ∀ left : Int, (adjustChunks gs left).map PercentCounterItem.index
      = gs.flatten.map PercentCounterItem.index := by
  induction gs with
  | nil => intro left; rfl
  | cons g gs ih =>
    intro left
    rw [adjustChunks]
    by_cases h : (g.length : Int) ≤ left
    · simp [h, List.map_append, List.map_map, ih, Function.comp_def, bumpItem_index]
    · simp [h, List.map_append, ih]

theorem distributeLeft_map_index (l : List PercentCounterItem) (left : Int) :
    (distributeLeft l left).map PercentCounterItem.index
      = l.map PercentCounterItem.index := by
  rw [distributeLeft, adjustChunks_map_index, chunksOf_flatten]

theorem forall₂_bump_self (g : List PercentCounterItem) :
    List.Forall₂ (fun a b => b = a ∨ b = bumpItem a) g (g.map bumpItem) := by
  induction g with
  | nil => exact List.Forall₂.nil
  | cons a g ih => exact List.Forall₂.cons (Or.inr rfl) ih

theorem forall₂_id_self (g : List PercentCounterItem) :
    List.Forall₂ (fun a b => b = a ∨ b = bumpItem a) g g := by
  induction g with
  | nil => exact List.Forall₂.nil
  | cons a g ih => exact List.Forall₂.cons (Or.inl rfl) ih

theorem adjustChunks_forall₂ (gs : List (List PercentCounterItem)) :
    ∀ left : Int, List.Forall₂ (fun a b => b = a ∨ b = bumpItem a)
      gs.flatten (adjustChunks gs left) := by
  induction gs with
  | nil => intro left; exact List.Forall₂.nil
  | cons g gs ih =>
    intro left
    rw [adjustChunks, List.flatten_cons]
    by_cases h : (g.length : Int) ≤ left
    · rw [if_pos h]
      exact List.rel_append (forall₂_bump_self g) (ih _)
    · rw [if_neg h]
      exact List.rel_append (forall₂_id_self g) (ih _)

theorem sum_map_bump (g : List PercentCounterItem) :
    ((g.map bumpItem).map PercentCounterItem.percent).sum
      = (g.map PercentCounterItem.percent).sum + g.length := by
  induction g with
  | nil => rfl
  | cons a g ih =>
    simp only [List.map_cons, List.sum_cons, ih, bumpItem, List.length_cons]
    omega

theorem adjustChunks_sum_le (gs : List (List PercentCounterItem)) :
    ∀ left : Int, ((adjustChunks gs left).map PercentCounterItem.percent).sum
      ≤ (gs.flatten.map PercentCounterItem.percent).sum + left.toNat := by
  induction gs with
  | nil => intro left; simp [adjustChunks]
  | cons g gs ih =>
    intro left
    rw [adjustChunks, List.flatten_cons]
    by_cases h : (g.length : Int) ≤ left
    · rw [if_pos h]
      have h1 := ih (left - g.length)
      simp only [List.map_append, List.sum_append, sum_map_bump]
      have h2 : g.length + (left - (g.length : Int)).toNat ≤ left.toNat := by omega
      omega
    · rw [if_neg h]
      have h1 := ih left
      simp only [List.map_append, List.sum_append]
      omega

/-! Helpers for takeWhile and dropWhile over a fully satisfying prefix. -/

theorem takeWhile_append_all {α : Type} {p : α → Bool} :
    ∀ (l r : List α), (∀ a ∈ l, p a = true) →
      (l ++ r).takeWhile p = l ++ r.takeWhile p := by
  intro l r h
  induction l with
  | nil => simp
  | cons a l' ih =>
    have ha : p a = true := h a (by simp)
    rw [List.cons_append, List.takeWhile_cons, if_pos ha, List.cons_append,
      ih fun b hb => h b (by simp [hb])]

theorem dropWhile_append_all {α : Type} {p : α → Bool} :
    ∀ (l r : List α), (∀ a ∈ l, p a = true) →
      (l ++ r).dropWhile p = r.dropWhile p := by
  intro l r h
  induction l with
  | nil => simp
  | cons a l' ih =>
    have ha : p a = true := h a (by simp)
    rw [List.cons_append, List.dropWhile_cons, if_pos ha,
      ih fun b hb => h b (by simp [hb])]

/-! Facts about the filled items array. -/

theorem itemsFrom_map_index (total : Nat) :
    ∀ (votes : List Nat) (i : Nat),
      (itemsFrom total i votes).map PercentCounterItem.index
        = List.range' i votes.length := by
  intro votes
  induction votes with
  | nil => intro i; rfl
  | cons v vs ih =>
    intro i
    simp [itemsFrom, itemOf, List.range'_succ, ih]

theorem itemsFrom_map_percent (total : Nat) :
    ∀ (votes : List Nat) (i : Nat),
      (itemsFrom total i votes).map PercentCounterItem.percent
        = votes.map fun v => v * 100 / total := by
  intro votes
  induction votes with
  | nil => intro i; rfl
  | cons v vs ih =>
    intro i
    simp [itemsFrom, itemOf, ih]

theorem itemsFrom_mem (total : Nat) :
    ∀ (votes : List Nat) (i : Nat) (a : PercentCounterItem),
      a ∈ itemsFrom total i votes →
        ∃ k, k < votes.length ∧ a = itemOf total (i + k) (votes.getD k 0) := by
  intro votes
  induction votes with
  | nil => intro i a ha; cases ha
  | cons v vs ih =>
    intro i a ha
    rw [itemsFrom, List.mem_cons] at ha
    cases ha with
    | inl h => exact ⟨0, by simp, by simpa using h⟩
    | inr h =>
      obtain ⟨k, hk, hak⟩ := ih (i + 1) a h
      refine ⟨k + 1, by simpa using hk, ?_⟩
      simpa [Nat.add_assoc, Nat.add_comm 1 k] using hak

theorem itemsFrom_mem_of_lt (total : Nat) :
    ∀ (votes : List Nat) (i : Nat) (k : Nat), k < votes.length →
      itemOf total (i + k) (votes.getD k 0) ∈ itemsFrom total i votes := by
  intro votes
  induction votes with
  | nil => intro i k hk; cases hk
  | cons v vs ih =>
    intro i k hk
    cases k with
    | zero => simp [itemsFrom]
    | succ k' =>
      rw [itemsFrom, List.mem_cons]
      right
      have := ih (i + 1) k' (by simpa using hk)
      simpa [Nat.add_assoc, Nat.add_comm 1 k'] using this

theorem itemsOfVotes_map_index (votes : List Nat) (total : Nat) :
    (itemsOfVotes votes total).map PercentCounterItem.index
      = List.range votes.length := by
  rw [itemsOfVotes, itemsFrom_map_index, List.range_eq_range']

theorem itemsOfVotes_map_percent (votes : List Nat) (total : Nat) :
    (itemsOfVotes votes total).map PercentCounterItem.percent
      = basePercents votes total := by
  rw [itemsOfVotes, itemsFrom_map_percent, basePercents]

theorem itemsOfVotes_mem (votes : List Nat) (total : Nat)
    (a : PercentCounterItem) (ha : a ∈ itemsOfVotes votes total) :
    a.index < votes.length ∧ a = itemOf total a.index (votes.getD a.index 0) := by
  obtain ⟨k, hk, hak⟩ := itemsFrom_mem total votes 0 a ha
  have hidx : a.index = k := by rw [hak]; simp [itemOf]
  constructor
  · omega
  · rw [hidx]
    simpa using hak

theorem itemsOfVotes_mem_of_lt (votes : List Nat) (total : Nat) (i : Nat)
    (hi : i < votes.length) :
    itemOf total i (votes.getD i 0) ∈ itemsOfVotes votes total := by
  have := itemsFrom_mem_of_lt total votes 0 i hi
  simpa using this

/-! Reading the result array back through find? on unique indices. -/

theorem find?_eq_some_of_unique (p : PercentCounterItem → Bool) :
    ∀ (l : List PercentCounterItem) (a : PercentCounterItem), a ∈ l →
      p a = true →
      (∀ b ∈ l, ∀ c ∈ l, p b = true → p c = true → b = c) →
      l.find? p = some a := by
  intro l
  induction l with
  | nil => intro a ha; cases ha
  | cons x xs ih =>
    intro a ha hpa hu
    by_cases hx : p x = true
    · rw [List.find?_cons_of_pos _ hx]
      have : a = x := hu a ha x (by simp) hpa hx
      rw [this]
    · rw [List.find?_cons_of_neg _ (by simpa using hx)]
      have hax : a ≠ x := fun h => hx (h ▸ hpa)
      have ha' : a ∈ xs := by
        rcases List.mem_cons.mp ha with h | h
        · exact absurd h hax
        · exact h
      exact ih a ha' hpa fun b hb c hc hpb hpc =>
        hu b (by simp [hb]) c (by simp [hc]) hpb hpc

theorem find?_eq_of_perm_unique (p : PercentCounterItem → Bool)
    (l l' : List PercentCounterItem) (hp : l.Perm l')
    (hu : ∀ b ∈ l, ∀ c ∈ l, p b = true → p c = true → b = c) :
    l.find? p = l'.find? p := by
  cases h1 : l.find? p with
  | none =>
    cases h2 : l'.find? p with
    | none => rfl
    | some b =>
      have hb : b ∈ l := hp.mem_iff.mpr (List.mem_of_find?_eq_some h2)
      have := (List.find?_eq_none.mp h1) b hb
      exact absurd (List.find?_some h2) this
  | some a =>
    have ha : a ∈ l := List.mem_of_find?_eq_some h1
    have hpa : p a = true := List.find?_some h1
    rw [find?_eq_some_of_unique p l' a (hp.mem_iff.mp ha) hpa ?_]
    intro b hb c hc hpb hpc
    exact hu b (hp.mem_iff.mpr hb) c (hp.mem_iff.mpr hc) hpb hpc

theorem index_unique_of_nodup {l : List PercentCounterItem}
    (hnd : (l.map PercentCounterItem.index).Nodup) (i : Nat) :
    ∀ b ∈ l, ∀ c ∈ l, (b.index == i) = true → (c.index == i) = true → b = c := by
  intro b hb c hc hpb hpc
  have hbi : b.index = i := by simpa using hpb
  have hci : c.index = i := by simpa using hpc
  exact List.inj_on_of_nodup_map hnd hb hc (hbi.trans hci.symm)

theorem readOut_eq_of_perm (n : Nat) (l l' : List PercentCounterItem)
    (hp : l.Perm l') (hnd : (l.map PercentCounterItem.index).Nodup) :
    readOut n l = readOut n l' := by
  rw [readOut, readOut, readOutIdx, readOutIdx]
  apply List.map_congr_left
  intro i _
  rw [find?_eq_of_perm_unique _ l l' hp (index_unique_of_nodup hnd i)]

theorem readOut_getD (n : Nat) (l : List PercentCounterItem) (i : Nat)
    (hi : i < n) (a : PercentCounterItem) (ha : a ∈ l) (hai : a.index = i)
    (hnd : (l.map PercentCounterItem.index).Nodup) :
    (readOut n l).getD i 0 = a.percent := by
  rw [readOut, readOutIdx]
  rw [List.getD_eq_getElem?_getD, List.getElem?_map, List.getElem?_range hi]
  have hfind : l.find? (fun b => b.index == i) = some a :=
    find?_eq_some_of_unique _ l a ha (by simpa using hai)
      (index_unique_of_nodup hnd i)
  simp [hfind]

theorem readOutIdx_perm :
    ∀ (l : List PercentCounterItem) (idxs : List Nat),
      (l.map PercentCounterItem.index).Perm idxs → idxs.Nodup →
      (readOutIdx idxs l).Perm (l.map PercentCounterItem.percent) := by
  intro l
  induction l with
  | nil =>
    intro idxs hp _
    have : idxs = [] := hp.symm.eq_nil
    simp [this, readOutIdx]
  | cons a l' ih =>
    intro idxs hp hnd
    have hmem : a.index ∈ idxs := hp.mem_iff.mp (by simp)
    obtain ⟨is1, is2, rfl⟩ := List.append_of_mem hmem
    have hmid : (is1 ++ a.index :: is2).Perm (a.index :: (is1 ++ is2)) :=
      List.perm_middle
    have hnd' : (a.index :: (is1 ++ is2)).Nodup := hmid.nodup hnd
    have hnotmem : a.index ∉ is1 ++ is2 := by
      intro h
      exact (List.nodup_cons.mp hnd').1 h
    have htail : (l'.map PercentCounterItem.index).Perm (is1 ++ is2) :=
      (hp.trans hmid).cons_inv
    have hstep : readOutIdx (is1 ++ a.index :: is2) (a :: l')
        = (readOutIdx is1 (a :: l')) ++
          a.percent :: (readOutIdx is2 (a :: l')) := by
      rw [readOutIdx, readOutIdx, readOutIdx, List.map_append, List.map_cons]
      congr 2
      rw [List.find?_cons_of_pos _ (by simp)]
      rfl
    have hskip : ∀ is : List Nat, (∀ i ∈ is, i ∈ is1 ++ is2) →
        readOutIdx is (a :: l') = readOutIdx is l' := by
      intro is his
      rw [readOutIdx, readOutIdx]
      apply List.map_congr_left
      intro i hi
      have hne : a.index ≠ i := by
        intro h
        exact hnotmem (h ▸ his i hi)
      rw [List.find?_cons_of_neg _ (by simpa using hne)]
    rw [hstep, hskip is1 (fun i hi => List.mem_append_left is2 hi),
      hskip is2 (fun i hi => List.mem_append_right is1 hi)]
    have hjoin : readOutIdx is1 l' ++ readOutIdx is2 l'
        = readOutIdx (is1 ++ is2) l' := by
      rw [readOutIdx, readOutIdx, readOutIdx, List.map_append]
    have hrec := ih (is1 ++ is2) htail (List.nodup_cons.mp hnd').2
    refine List.Perm.trans List.perm_middle ?_
    rw [List.map_cons]
    exact List.Perm.cons _ (by rw [hjoin]; exact hrec)

/-! Sorted lists decompose into a filtered key class plus a sorted rest. -/

theorem sorted_takeWhile_eq_filter (x : PercentCounterItem) :
    ∀ xs : List PercentCounterItem, List.Sorted itemLe (x :: xs) →
      xs.takeWhile (sameKey x) = xs.filter (sameKey x) ∧
      xs.dropWhile (sameKey x) = xs.filter (fun z => !(sameKey x z)) := by
  intro xs
  induction xs with
  | nil => intro _; exact ⟨rfl, rfl⟩
  | cons y ys ih =>
    intro hs
    have hxy : itemLe x y := (List.sorted_cons.mp hs).1 y (by simp)
    have hsyys : List.Sorted itemLe (y :: ys) := (List.sorted_cons.mp hs).2
    by_cases hk : sameKey x y
    · have hs' : List.Sorted itemLe (x :: ys) := by
        rw [List.sorted_cons]
        refine ⟨fun b hb => (List.sorted_cons.mp hs).1 b (by simp [hb]), ?_⟩
        exact (List.sorted_cons.mp hsyys).2
      obtain ⟨ht, hd⟩ := ih hs'
      constructor
      · rw [List.takeWhile_cons, if_pos hk, List.filter_cons, if_pos hk, ht]
      · rw [List.dropWhile_cons, if_pos hk, List.filter_cons]
        simp only [hk, Bool.not_true, Bool.false_eq_true, if_false]
        exact hd
    · have hall : ∀ z ∈ ys, sameKey x z = false := by
        intro z hz
        have hyz : itemLe y z := (List.sorted_cons.mp hsyys).1 z hz
        have := sameKey_break hxy (by simpa using hk) hyz
        simpa using this
      have hkfalse : sameKey x y = false := by simpa using hk
      constructor
      · rw [List.takeWhile_cons, if_neg (by simp [hkfalse])]
        rw [eq_comm, List.filter_eq_nil_iff]
        intro z hz
        rcases List.mem_cons.mp hz with h | h
        · simp [h, hkfalse]
        · simp [hall z h]
      · rw [List.dropWhile_cons, if_neg (by simp [hkfalse])]
        rw [eq_comm, List.filter_eq_self]
        intro z hz
        rcases List.mem_cons.mp hz with h | h
        · simp [h, hkfalse]
        · simp [hall z h]

theorem sorted_heads_sameKey {x₁ x₂ : PercentCounterItem}
    {xs₁ xs₂ : List PercentCounterItem}
    (hp : (x₁ :: xs₁).Perm (x₂ :: xs₂))
    (hs₁ : List.Sorted itemLe (x₁ :: xs₁))
    (hs₂ : List.Sorted itemLe (x₂ :: xs₂)) : sameKey x₁ x₂ = true := by
  have h21 : x₂ ∈ x₁ :: xs₁ := hp.mem_iff.mpr (by simp)
  have h12 : x₁ ∈ x₂ :: xs₂ := hp.mem_iff.mp (by simp)
  rcases List.mem_cons.mp h21 with h | h
  · rw [← h]; exact sameKey_self x₂
  · rcases List.mem_cons.mp h12 with h' | h'
    · rw [h']; exact sameKey_self x₂
    · exact itemLe_antisymm_key ((List.sorted_cons.mp hs₁).1 x₂ h)
        ((List.sorted_cons.mp hs₂).1 x₁ h')

theorem filter_head_true {x : PercentCounterItem} (xs : List PercentCounterItem) :
    (x :: xs).filter (sameKey x) = x :: xs.filter (sameKey x) := by
  rw [List.filter_cons, if_pos (sameKey_self x)]

theorem filter_head_not {x : PercentCounterItem} (xs : List PercentCounterItem) :
    (x :: xs).filter (fun z => !(sameKey x z)) =
      xs.filter (fun z => !(sameKey x z)) := by
  rw [List.filter_cons]
  simp [sameKey_self x]

/-- Distribution over any two sorted permutations of the same items gives
permuted results. -/
theorem distributeLeft_perm_aux :
    ∀ (n : Nat) (l₁ l₂ : List PercentCounterItem) (left : Int),
      l₁.length ≤ n → l₁.Perm l₂ →
      List.Sorted itemLe l₁ → List.Sorted itemLe l₂ →
      (distributeLeft l₁ left).Perm (distributeLeft l₂ left) := by
  intro n
  induction n with
  | zero =>
    intro l₁ l₂ left hlen hp _ _
    have h1 : l₁ = [] := List.length_eq_zero.mp (Nat.le_zero.mp hlen)
    have h2 : l₂ = [] := (h1 ▸ hp).symm.eq_nil
    rw [h1, h2]
  | succ n ih =>
    intro l₁ l₂ left hlen hp hs₁ hs₂
    cases l₁ with
    | nil =>
      have h2 : l₂ = [] := hp.symm.eq_nil
      rw [h2]
    | cons x₁ xs₁ =>
      cases l₂ with
      | nil => exact absurd hp.eq_nil (by simp)
      | cons x₂ xs₂ =>
        have hkey : sameKey x₁ x₂ = true := sorted_heads_sameKey hp hs₁ hs₂
        have hfun : sameKey x₁ = sameKey x₂ := sameKey_congr hkey
        obtain ⟨ht₁, hd₁⟩ := sorted_takeWhile_eq_filter x₁ xs₁ hs₁
        obtain ⟨ht₂, hd₂⟩ := sorted_takeWhile_eq_filter x₂ xs₂ hs₂
        rw [distributeLeft, distributeLeft, chunksOf_cons, chunksOf_cons,
          ht₁, hd₁, ht₂, hd₂]
        have hg : (x₁ :: xs₁.filter (sameKey x₁)).Perm
            (x₂ :: xs₂.filter (sameKey x₂)) := by
          rw [← filter_head_true, ← filter_head_true, ← hfun]
          exact hp.filter (sameKey x₁)
        have hr : (xs₁.filter (fun z => !(sameKey x₁ z))).Perm
            (xs₂.filter (fun z => !(sameKey x₂ z))) := by
          have h := hp.filter (fun z => !(sameKey x₁ z))
          rw [filter_head_not] at h
          rw [List.filter_cons] at h
          simp only [hkey, Bool.not_true, Bool.false_eq_true, if_false] at h
          rw [← hfun]
          exact h
        have hrs₁ : List.Sorted itemLe (xs₁.filter fun z => !(sameKey x₁ z)) :=
          List.Pairwise.sublist (List.filter_sublist xs₁)
            (List.sorted_cons.mp hs₁).2
        have hrs₂ : List.Sorted itemLe (xs₂.filter fun z => !(sameKey x₂ z)) :=
          List.Pairwise.sublist (List.filter_sublist xs₂)
            (List.sorted_cons.mp hs₂).2
        have hrlen : (xs₁.filter fun z => !(sameKey x₁ z)).length ≤ n := by
          have h1 := List.length_filter_le (fun z => !(sameKey x₁ z)) xs₁
          rw [List.length_cons] at hlen
          omega
        have hglen : (x₁ :: xs₁.filter (sameKey x₁)).length
            = (x₂ :: xs₂.filter (sameKey x₂)).length := hg.length_eq
        rw [adjustChunks, adjustChunks]
        by_cases hfit : ((x₁ :: xs₁.filter (sameKey x₁)).length : Int) ≤ left
        · rw [if_pos hfit, if_pos (hglen ▸ hfit), hglen]
          exact List.Perm.append (hg.map bumpItem)
            (ih _ _ _ hrlen hr hrs₁ hrs₂)
        · rw [if_neg hfit, if_neg (hglen ▸ hfit)]
          exact List.Perm.append hg (ih _ _ _ hrlen hr hrs₁ hrs₂)

/-! Arithmetic facts about floor division sums. -/

theorem nat_div_add_div_le (a b d : Nat) : a / d + b / d ≤ (a + b) / d := by
  rcases Nat.eq_zero_or_pos d with h | h
  · simp [h]
  · rw [Nat.le_div_iff_mul_le h, Nat.add_mul]
    exact Nat.add_le_add (Nat.div_mul_le_self a d) (Nat.div_mul_le_self b d)

theorem sum_map_div_le (l : List Nat) (d : Nat) :
    (l.map fun v => v / d).sum ≤ l.sum / d := by
  induction l with
  | nil => simp
  | cons v vs ih =>
    rw [List.map_cons, List.sum_cons, List.sum_cons]
    calc v / d + (vs.map fun v => v / d).sum
        ≤ v / d + vs.sum / d := Nat.add_le_add_left ih _
      _ ≤ (v + vs.sum) / d := nat_div_add_div_le v vs.sum d

theorem sum_map_mul_hundred (l : List Nat) :
    (l.map fun v => v * 100).sum = l.sum * 100 := by
  induction l with
  | nil => rfl
  | cons v vs ih =>
    rw [List.map_cons, List.sum_cons, List.sum_cons, ih, Nat.add_mul]

theorem basePercents_sum_le (votes : List Nat) (total : Nat)
    (htotal : 0 < total) (hsum : votes.sum ≤ total) :
    (basePercents votes total).sum ≤ 100 := by
  have h1 : basePercents votes total = (votes.map fun v => v * 100).map
      fun w => w / total := by
    rw [basePercents, List.map_map]
    rfl
  rw [h1]
  calc ((votes.map fun v => v * 100).map fun w => w / total).sum
      ≤ (votes.map fun v => v * 100).sum / total :=
        sum_map_div_le _ total
    _ = votes.sum * 100 / total := by rw [sum_map_mul_hundred]
    _ ≤ total * 100 / total :=
        Nat.div_le_div_right (Nat.mul_le_mul_right 100 hsum)
    _ = 100 := by
        rw [Nat.mul_comm, Nat.mul_div_cancel 100 htotal]

theorem base_le_hundred (v total : Nat) (htotal : 0 < total) (hv : v ≤ total) :
    v * 100 / total ≤ 100 := by
  calc v * 100 / total ≤ total * 100 / total :=
        Nat.div_le_div_right (Nat.mul_le_mul_right 100 hv)
    _ = 100 := by rw [Nat.mul_comm, Nat.mul_div_cancel 100 htotal]

/-! The per-index characterisation of the allocator output. -/

theorem forall₂_exists_left {R : PercentCounterItem → PercentCounterItem → Prop} :
    ∀ {l l' : List PercentCounterItem}, List.Forall₂ R l l' →
      ∀ b ∈ l', ∃ a ∈ l, R a b := by
  intro l l' h
  induction h with
  | nil => intro b hb; cases hb
  | cons hR _ ih =>
    intro b hb
    rcases List.mem_cons.mp hb with h' | h'
    · exact ⟨_, by simp, h' ▸ hR⟩
    · obtain ⟨a, ha, hab⟩ := ih b h'
      exact ⟨a, by simp [ha], hab⟩

theorem sortItems_perm (l : List PercentCounterItem) : (sortItems l).Perm l :=
  List.perm_insertionSort itemLe l

theorem sortItems_sorted (l : List PercentCounterItem) :
    List.Sorted itemLe (sortItems l) :=
  List.sorted_insertionSort itemLe l

theorem distributeLeft_index_nodup (votes : List Nat) (total : Nat)
    (l : List PercentCounterItem) (hl : l.Perm (itemsOfVotes votes total))
    (left : Int) :
    ((distributeLeft l left).map PercentCounterItem.index).Nodup := by
  rw [distributeLeft_map_index]
  have hperm : (l.map PercentCounterItem.index).Perm
      (List.range votes.length) := by
    rw [← itemsOfVotes_map_index votes total]
    exact hl.map PercentCounterItem.index
  exact hperm.symm.nodup (List.nodup_range votes.length)

theorem items_index_nodup (votes : List Nat) (total : Nat) :
    ((itemsOfVotes votes total).map PercentCounterItem.index).Nodup := by
  rw [itemsOfVotes_map_index]
  exact List.nodup_range votes.length

theorem countNicePercentWith_getD (votes : List Nat) (total : Nat)
    (l : List PercentCounterItem) (hl : l.Perm (itemsOfVotes votes total))
    (i : Nat) (hi : i < votes.length) :
    (countNicePercentWith votes total l).getD i 0 = votes.getD i 0 * 100 / total
    ∨ ((countNicePercentWith votes total l).getD i 0
          = votes.getD i 0 * 100 / total + 1
        ∧ 0 < leftOf votes total ∧ leftOf votes total ≤ (votes.length : Int)) := by
  rw [countNicePercentWith]
  by_cases hg : 0 < leftOf votes total ∧ leftOf votes total ≤ (votes.length : Int)
  · rw [if_pos hg]
    set left := leftOf votes total with hleft
    have hnd := distributeLeft_index_nodup votes total l hl left
    have hidx : (distributeLeft l left).map PercentCounterItem.index
        = l.map PercentCounterItem.index := distributeLeft_map_index l left
    have hmem : i ∈ (distributeLeft l left).map PercentCounterItem.index := by
      rw [hidx]
      have : (l.map PercentCounterItem.index).Perm (List.range votes.length) := by
        rw [← itemsOfVotes_map_index votes total]
        exact hl.map PercentCounterItem.index
      exact this.mem_iff.mpr (List.mem_range.mpr hi)
    obtain ⟨b, hb, hbi⟩ := List.mem_map.mp hmem
    have hf : List.Forall₂ (fun a c => c = a ∨ c = bumpItem a)
        l (distributeLeft l left) := by
      have := adjustChunks_forall₂ (chunksOf l) left
      rwa [chunksOf_flatten] at this
    obtain ⟨a, ha, hab⟩ := forall₂_exists_left hf b hb
    have haitems : a ∈ itemsOfVotes votes total := hl.mem_iff.mp ha
    obtain ⟨halt, haeq⟩ := itemsOfVotes_mem votes total a haitems
    have haidx : a.index = i := by
      rcases hab with h | h
      · rw [h] at hbi; exact hbi
      · rw [h] at hbi; rw [← bumpItem_index a]; exact hbi
    have hapct : a.percent = votes.getD i 0 * 100 / total := by
      rw [haeq]
      simp [itemOf, haidx]
    have hread : (readOut votes.length (distributeLeft l left)).getD i 0
        = b.percent := readOut_getD votes.length _ i hi b hb hbi hnd
    rcases hab with h | h
    · left
      rw [hread, h, hapct]
    · right
      refine ⟨?_, hg.1, hg.2⟩
      rw [hread, h]
      show a.percent + 1 = votes.getD i 0 * 100 / total + 1
      rw [hapct]
  · rw [if_neg hg]
    left
    have hnd := items_index_nodup votes total
    have ha := itemsOfVotes_mem_of_lt votes total i hi
    have hread := readOut_getD votes.length (itemsOfVotes votes total) i hi
      (itemOf total i (votes.getD i 0)) ha (by simp [itemOf]) hnd
    rw [hread]
    simp [itemOf]

/-! Sum of the allocator output. -/

theorem readOut_sum (n : Nat) (l : List PercentCounterItem)
    (hp : (l.map PercentCounterItem.index).Perm (List.range n)) :
    (readOut n l).sum = (l.map PercentCounterItem.percent).sum :=
  (readOutIdx_perm l (List.range n) hp (List.nodup_range n)).sum_eq

theorem leftOf_eq (votes : List Nat) (total : Nat) :
    leftOf votes total = 100 - ((basePercents votes total).sum : Int) := by
  rw [leftOf, itemsOfVotes_map_percent]

theorem countNicePercentWith_sum_le (votes : List Nat) (total : Nat)
    (l : List PercentCounterItem) (hl : l.Perm (itemsOfVotes votes total)) :
    (countNicePercentWith votes total l).sum
      ≤ (basePercents votes total).sum + (leftOf votes total).toNat := by
  rw [countNicePercentWith]
  by_cases hg : 0 < leftOf votes total ∧ leftOf votes total ≤ (votes.length : Int)
  · rw [if_pos hg]
    set left := leftOf votes total with hleft
    have hpidx : ((distributeLeft l left).map PercentCounterItem.index).Perm
        (List.range votes.length) := by
      rw [distributeLeft_map_index, ← itemsOfVotes_map_index votes total]
      exact hl.map PercentCounterItem.index
    rw [readOut_sum votes.length _ hpidx]
    have hb := adjustChunks_sum_le (chunksOf l) left
    rw [chunksOf_flatten] at hb
    have hpct : (l.map PercentCounterItem.percent).sum
        = (basePercents votes total).sum := by
      rw [← itemsOfVotes_map_percent votes total]
      exact (hl.map PercentCounterItem.percent).sum_eq
    rw [distributeLeft] at *
    omega
  · rw [if_neg hg]
    have hpidx : ((itemsOfVotes votes total).map PercentCounterItem.index).Perm
        (List.range votes.length) := by
      rw [itemsOfVotes_map_index]
    rw [readOut_sum votes.length _ hpidx, itemsOfVotes_map_percent]
    omega

theorem countNicePercent_getD (votes : List Nat) (total : Nat) (i : Nat)
    (hi : i < votes.length) :
    (countNicePercent votes total).getD i 0 = votes.getD i 0 * 100 / total
    ∨ ((countNicePercent votes total).getD i 0
          = votes.getD i 0 * 100 / total + 1
        ∧ 0 < leftOf votes total
        ∧ leftOf votes total ≤ (votes.length : Int)) :=
  countNicePercentWith_getD votes total _
    (sortItems_perm (itemsOfVotes votes total)) i hi

theorem countNicePercent_sum_le (votes : List Nat) (total : Nat) :
    (countNicePercent votes total).sum
      ≤ (basePercents votes total).sum + (leftOf votes total).toNat :=
  countNicePercentWith_sum_le votes total _
    (sortItems_perm (itemsOfVotes votes total))

theorem countNicePercent_length (votes : List Nat) (total : Nat) :
    (countNicePercent votes total).length = votes.length := by
  rw [countNicePercent, countNicePercentWith]
  by_cases hg : 0 < leftOf votes total ∧ leftOf votes total ≤ (votes.length : Int)
  · rw [if_pos hg, readOut, readOutIdx, List.length_map, List.length_range]
  · rw [if_neg hg, readOut, readOutIdx, List.length_map, List.length_range]

theorem countNicePercent_mem_getD (votes : List Nat) (total : Nat) (p : Nat)
    (hp : p ∈ countNicePercent votes total) :
    ∃ i, i < votes.length ∧ (countNicePercent votes total).getD i 0 = p := by
  obtain ⟨k, hk, hek⟩ := List.mem_iff_getElem.mp hp
  have hlen := countNicePercent_length votes total
  refine ⟨k, by omega, ?_⟩
  rw [List.getD_eq_getElem?_getD, List.getElem?_eq_getElem hk]
  simpa using hek

theorem basePercents_getD (votes : List Nat) (total : Nat) (i : Nat)
    (hi : i < votes.length) :
    (basePercents votes total).getD i 0 = votes.getD i 0 * 100 / total := by
  rw [basePercents, List.getD_eq_getElem?_getD, List.getElem?_map,
    List.getElem?_eq_getElem hi]
  rw [List.getD_eq_getElem?_getD, List.getElem?_eq_getElem hi]
  rfl

theorem getD_mem_of_lt (votes : List Nat) (i : Nat) (hi : i < votes.length) :
    votes.getD i 0 ∈ votes := by
  rw [List.getD_eq_getElem?_getD, List.getElem?_eq_getElem hi]
  exact List.getElem_mem hi

/-- Claim C1 counterexample: for votes [1,1,1] with total 3 the three-way
remainder tie of size 3 exceeds the deficit of 1, the whole group is
skipped, and the output sums to 99, not 100. -/
theorem claim1_counterexample :
    countNicePercent [1, 1, 1] 3 = [33, 33, 33] ∧
    (countNicePercent [1, 1, 1] 3).sum ≠ 100 := by decide

/-- Claim C1 (amended): for every vote vector of N non-negative integers
(1 <= N <= kMaxOptions) whose sum is at most the positive total,
CountNicePercent produces percentages that are each in [0,100] and that sum
to at most 100; the sum can fall short of 100 when a tied group does not
fit in the remaining deficit. -/
theorem claim1_allocator_bounds (votes : List Nat) (total : Nat)
    (hn : 1 ≤ votes.length) (hmax : votes.length ≤ kMaxOptions)
    (htotal : 0 < total) (hsum : votes.sum ≤ total) :
    (∀ p ∈ countNicePercent votes total, p ≤ 100) ∧
    (countNicePercent votes total).sum ≤ 100 := by
  have hbsum : (basePercents votes total).sum ≤ 100 :=
    basePercents_sum_le votes total htotal hsum
  constructor
  · intro p hp
    obtain ⟨i, hi, hgd⟩ := countNicePercent_mem_getD votes total p hp
    have hb_le : votes.getD i 0 * 100 / total ≤ 100 := by
      apply base_le_hundred _ _ htotal
      calc votes.getD i 0 ≤ votes.sum :=
            List.single_le_sum (fun x _ => Nat.zero_le x) _
              (getD_mem_of_lt votes i hi)
        _ ≤ total := hsum
    rcases countNicePercent_getD votes total i hi with h | ⟨h, hpos, _⟩
    · omega
    · have hmem : votes.getD i 0 * 100 / total ∈ basePercents votes total := by
        rw [basePercents]
        exact List.mem_map_of_mem _ (getD_mem_of_lt votes i hi)
      have hle : votes.getD i 0 * 100 / total ≤ (basePercents votes total).sum :=
        List.single_le_sum (fun x _ => Nat.zero_le x) _ hmem
      rw [leftOf_eq] at hpos
      omega
  · have := countNicePercent_sum_le votes total
    rw [leftOf_eq] at this
    omega

/-- Claim C1 witness at votes [2,1] with total 3. -/
theorem claim1_witness :
    (∀ p ∈ countNicePercent [2, 1] 3, p ≤ 100) ∧
    (countNicePercent [2, 1] 3).sum ≤ 100 :=
  claim1_allocator_bounds [2, 1] 3 (by decide) (by decide) (by decide)
    (by decide)

/-- Claim C2 counterexample: for votes [1,1,1] with total 3 no option
receives the extra point, no 34 appears, and the output sums to 99. -/
theorem claim2_counterexample :
    ¬ (34 ∈ countNicePercent [1, 1, 1] 3) ∧
    (countNicePercent [1, 1, 1] 3).sum = 99 := by decide

/-- Claim C2 (amended): for votes [1,1,1] with total 3 every option has
base percent 33 and remainder 1 (a three-way tie), the deficit is 1, and
because the tie group of size 3 does not fit in the deficit of 1 the whole
group is skipped atomically: no option receives the extra point and the
output is [33,33,33], summing to 99. -/
theorem claim2_three_way_tie :
    itemsOfVotes [1, 1, 1] 3 = [⟨0, 33, 1⟩, ⟨1, 33, 1⟩, ⟨2, 33, 1⟩] ∧
    leftOf [1, 1, 1] 3 = 1 ∧
    countNicePercent [1, 1, 1] 3 = [33, 33, 33] ∧
    (countNicePercent [1, 1, 1] 3).sum = 99 := by decide

/-- Claim C3: in the deficit-distribution step, a maximal group of items
sharing (percent, remainder) is treated atomically: if it fits within the
remaining deficit every member is incremented and the deficit shrinks by
the group size, otherwise no member is incremented and processing continues
with the rest. -/
theorem claim3_group_atomic (g r : List PercentCounterItem) (left : Int)
    (p rem : Nat) (hg : g ≠ [])
    (hgk : ∀ a ∈ g, a.percent = p ∧ a.remainder = rem)
    (hr : ∀ b ∈ r.head?, ¬ (b.percent = p ∧ b.remainder = rem)) :
    distributeLeft (g ++ r) left =
      if (g.length : Int) ≤ left then
        g.map bumpItem ++ distributeLeft r (left - g.length)
      else g ++ distributeLeft r left := by
  cases g with
  | nil => exact absurd rfl hg
  | cons x g' =>
    obtain ⟨hxp, hxr⟩ := hgk x (by simp)
    have hall : ∀ a ∈ g', sameKey x a = true := by
      intro a ha
      obtain ⟨hap, har⟩ := hgk a (by simp [ha])
      rw [sameKey_eq_true_iff]
      omega
    have hchunk : chunksOf ((x :: g') ++ r) = (x :: g') :: chunksOf r := by
      rw [List.cons_append, chunksOf_cons,
        takeWhile_append_all g' r hall, dropWhile_append_all g' r hall]
      cases r with
      | nil => simp
      | cons b r' =>
        have hb := hr b (by simp)
        have hkb : ¬ sameKey x b = true := by
          rw [sameKey_eq_true_iff]
          intro hcon
          apply hb
          constructor
          · omega
          · omega
        rw [List.takeWhile_cons, if_neg hkb, List.dropWhile_cons, if_neg hkb]
        simp
    rw [distributeLeft, hchunk, adjustChunks, distributeLeft, distributeLeft]

/-- Claim C3 witness: a fitting pair with equal key is promoted whole. -/
theorem claim3_witness :
    distributeLeft
        ([⟨0, 33, 1⟩, ⟨1, 33, 1⟩] ++ [⟨2, 10, 0⟩]) 2 =
      if (([⟨0, 33, 1⟩, ⟨1, 33, 1⟩] :
            List PercentCounterItem).length : Int) ≤ 2 then
        ([⟨0, 33, 1⟩, ⟨1, 33, 1⟩] :
            List PercentCounterItem).map bumpItem ++
          distributeLeft [⟨2, 10, 0⟩]
            (2 - ([⟨0, 33, 1⟩, ⟨1, 33, 1⟩] :
              List PercentCounterItem).length)
      else [⟨0, 33, 1⟩, ⟨1, 33, 1⟩] ++ distributeLeft [⟨2, 10, 0⟩] 2 :=
  claim3_group_atomic [⟨0, 33, 1⟩, ⟨1, 33, 1⟩] [⟨2, 10, 0⟩] 2 33 1
    (by decide) (by decide) (by decide)

/-- Claim C8: CountNicePercent is deterministic.  The only freedom the
unstable std::sort has is which pairwise-itemLe permutation of the items it
returns; any two such permutations produce identical output vectors. -/
theorem claim8_deterministic (votes : List Nat) (total : Nat)
    (l₁ l₂ : List PercentCounterItem)
    (h₁ : l₁.Perm (itemsOfVotes votes total))
    (h₂ : l₂.Perm (itemsOfVotes votes total))
    (hs₁ : List.Sorted itemLe l₁) (hs₂ : List.Sorted itemLe l₂) :
    countNicePercentWith votes total l₁ = countNicePercentWith votes total l₂ := by
  rw [countNicePercentWith, countNicePercentWith]
  by_cases hg : 0 < leftOf votes total ∧ leftOf votes total ≤ (votes.length : Int)
  · rw [if_pos hg, if_pos hg]
    exact readOut_eq_of_perm votes.length _ _
      (distributeLeft_perm_aux l₁.length l₁ l₂ _ le_rfl (h₁.trans h₂.symm)
        hs₁ hs₂)
      ((distributeLeft_map_index l₁ _).symm ▸
        (distributeLeft_index_nodup votes total l₁ h₁ _))
  · rw [if_neg hg, if_neg hg]

/-- Claim C8 witness: the two sorted permutations of a two-way tie yield the
same output. -/
theorem claim8_witness :
    countNicePercentWith [1, 1] 2 [⟨0, 50, 0⟩, ⟨1, 50, 0⟩]
      = countNicePercentWith [1, 1] 2 [⟨1, 50, 0⟩, ⟨0, 50, 0⟩] :=
  claim8_deterministic [1, 1] 2 [⟨0, 50, 0⟩, ⟨1, 50, 0⟩]
    [⟨1, 50, 0⟩, ⟨0, 50, 0⟩] (by decide) (by decide) (by decide) (by decide)

/-- Claim C9: an all-zero vote vector with total normalised to 1 yields all
zero percentages (the deficit 100 exceeds the option count, so the
distribution step never runs). -/
theorem claim9_all_zero (n : Nat) (h1 : 1 ≤ n) (h2 : n ≤ kMaxOptions) :
    countNicePercent (List.replicate n 0) 1 = List.replicate n 0 ∧
    (countNicePercent (List.replicate n 0) 1).sum = 0 := by
  rw [kMaxOptions] at h2
  interval_cases n <;> exact ⟨by decide, by decide⟩

/-- Claim C9 witness at n = 3. -/
theorem claim9_witness :
    countNicePercent (List.replicate 3 0) 1 = List.replicate 3 0 ∧
    (countNicePercent (List.replicate 3 0) 1).sum = 0 :=
  claim9_all_zero 3 (by decide) (by decide)

/-- Claim C10 counterexample: at votes [5] with total 1 the initial deficit
100 - sum(base) is -400 while zero points are added, so the number of added
points (0) exceeds the deficit; the claim's bound fails for inputs whose
base percentages already exceed 100. -/
theorem claim10_counterexample :
    countNicePercent [5] 1 = [500] ∧
    basePercents [5] 1 = [500] ∧
    ¬ (((countNicePercent [5] 1).sum : Int) - ((basePercents [5] 1).sum : Int)
        ≤ 100 - ((basePercents [5] 1).sum : Int)) := by decide

/-- Claim C10 (amended): each output percentage equals its base floor value
or that plus one (so the adjustment never decreases a percentage and never
adds more than one point to an option), and the total number of added
points never exceeds max(0, 100 - sum(base)); when the deficit is negative
no adjustment runs. -/
theorem claim10_bump_bounds (votes : List Nat) (total : Nat)
    (htotal : 0 < total) (hmax : votes.length ≤ kMaxOptions) :
    (∀ i, i < votes.length →
      (countNicePercent votes total).getD i 0
          = (basePercents votes total).getD i 0
      ∨ (countNicePercent votes total).getD i 0
          = (basePercents votes total).getD i 0 + 1) ∧
    ((countNicePercent votes total).sum : Int)
        - ((basePercents votes total).sum : Int)
      ≤ max (100 - ((basePercents votes total).sum : Int)) 0 := by
  constructor
  · intro i hi
    rw [basePercents_getD votes total i hi]
    rcases countNicePercent_getD votes total i hi with h | ⟨h, _, _⟩
    · exact Or.inl h
    · exact Or.inr h
  · have := countNicePercent_sum_le votes total
    rw [leftOf_eq] at this
    omega

/-- Claim C10 witness at votes [1,1,1] with total 3. -/
theorem claim10_witness :
    ((∀ i, i < ([1, 1, 1] : List Nat).length →
      (countNicePercent [1, 1, 1] 3).getD i 0
          = (basePercents [1, 1, 1] 3).getD i 0
      ∨ (countNicePercent [1, 1, 1] 3).getD i 0
          = (basePercents [1, 1, 1] 3).getD i 0 + 1) ∧
    ((countNicePercent [1, 1, 1] 3).sum : Int)
        - ((basePercents [1, 1, 1] 3).sum : Int)
      ≤ max (100 - ((basePercents [1, 1, 1] 3).sum : Int)) 0) :=
  claim10_bump_bounds [1, 1, 1] 3 (by decide) (by decide)

/-! Step lemmas for the update pipeline of HistoryPoll::updateTexts. -/

theorem updateTexts_eq (s : HistoryPollState) (poll : PollData)
    (h : s.pollVersion ≠ poll.version) :
    updateTexts s poll =
      (if (checkAnimationStart { s with pollVersion := poll.version } poll).1 then
        startAnswersAnimation (updateVotes (updateAnswers
          { (checkAnimationStart { s with pollVersion := poll.version } poll).2
              with closed := poll.closed } poll) poll)
      else
        updateVotes (updateAnswers
          { (checkAnimationStart { s with pollVersion := poll.version } poll).2
              with closed := poll.closed } poll) poll) := by
  rw [updateTexts, if_neg (by simp [h])]

theorem updateTexts_eq_same (s : HistoryPollState) (poll : PollData)
    (h : s.pollVersion = poll.version) : updateTexts s poll = s := by
  rw [updateTexts, if_pos (by simp [h])]

theorem checkAnimationStart_true (s : HistoryPollState) (poll : PollData)
    (hlen : poll.answers.length = s.answers.length)
    (hres : ((s.canVote != (!poll.votedFlag && !poll.closed))
        || answerVotesChanged s poll) = true) :
    checkAnimationStart s poll = (true, saveStateInAnimation s) := by
  rw [checkAnimationStart, if_neg (by simp [hlen]), if_pos hres]

theorem checkAnimationStart_false_len (s : HistoryPollState) (poll : PollData)
    (hlen : poll.answers.length ≠ s.answers.length) :
    checkAnimationStart s poll = (false, s) := by
  rw [checkAnimationStart, if_pos (by simp [hlen])]

theorem saveStateInAnimation_none (s : HistoryPollState)
    (h : s.answersAnimation = none) :
    saveStateInAnimation s =
      { s with
        answersAnimation := some
          { data := s.answers.map (saveAnswerState s.canVote)
            progressFrom := 0
            progressTo := 0
            progressActive := false } } := by
  simp only [saveStateInAnimation, h]

theorem saveStateInAnimation_some (s : HistoryPollState)
    (a : AnswersAnimation) (h : s.answersAnimation = some a) :
    saveStateInAnimation s = s := by
  simp only [saveStateInAnimation, h]

theorem updateAnswers_same (s : HistoryPollState) (poll : PollData)
    (h : s.answers.map Answer.option = poll.answers.map PollAnswer.option) :
    updateAnswers s poll = s := by
  rw [updateAnswers, if_pos (by simp [h])]

theorem updateAnswers_rebuild (s : HistoryPollState) (poll : PollData)
    (h : s.answers.map Answer.option ≠ poll.answers.map PollAnswer.option) :
    updateAnswers s poll =
      { s with
        answers := poll.answers.map Answer.ofOriginal
        answersAnimation := none } := by
  rw [updateAnswers, if_neg (by simp [h])]

theorem updateAnswerVotes_skip (s : HistoryPollState) (poll : PollData)
    (h : poll.answers.length ≠ s.answers.length ∨ poll.answers = []) :
    updateAnswerVotes s poll = s := by
  rw [updateAnswerVotes, if_pos]
  rcases h with h | h <;> simp [h]

theorem updateAnswerVotes_run (s : HistoryPollState) (poll : PollData)
    (hlen : poll.answers.length = s.answers.length)
    (hne : poll.answers ≠ []) :
    updateAnswerVotes s poll =
      { s with
        answers :=
          List.zipWith3
            (updateAnswerVotesFromOriginal s.canVote
              (max 1 ((poll.answers.map PollAnswer.votes).foldr max 0)))
            s.answers poll.answers
            (countNicePercent (poll.answers.map PollAnswer.votes)
              (max 1 poll.totalVoters)) } := by
  rw [updateAnswerVotes, if_neg]
  simp [hlen, hne]

theorem startAnswersAnimation_none (s : HistoryPollState)
    (h : s.answersAnimation = none) : startAnswersAnimation s = s := by
  simp only [startAnswersAnimation, h]

theorem startAnswersAnimation_some (s : HistoryPollState)
    (a : AnswersAnimation) (h : s.answersAnimation = some a) :
    startAnswersAnimation s =
      { s with
        answersAnimation := some
          { data := startAnimData s.canVote s.answers a.data
            progressFrom := 0
            progressTo := 1
            progressActive := true } } := by
  simp only [startAnswersAnimation, h]

theorem startAnimData_length (can : Bool) :
    ∀ (as_ : List Answer) (ds : List AnswerAnimation),
      (startAnimData can as_ ds).length = ds.length := by
  intro as_
  induction as_ with
  | nil =>
    intro ds
    cases ds <;> rfl
  | cons a as_ ih =>
    intro ds
    cases ds with
    | nil => rfl
    | cons d ds => simp [startAnimData, ih ds]

theorem startAnimData_eq_zipWith (can : Bool) :
    ∀ (as_ : List Answer) (ds : List AnswerAnimation),
      as_.length = ds.length →
      startAnimData can as_ ds = List.zipWith (startAnswerAnimation can) as_ ds := by
  intro as_
  induction as_ with
  | nil =>
    intro ds h
    cases ds with
    | nil => rfl
    | cons d ds => simp at h
  | cons a as_ ih =>
    intro ds h
    cases ds with
    | nil => simp at h
    | cons d ds =>
      rw [List.length_cons, List.length_cons] at h
      simp [startAnimData, List.zipWith, ih ds (by omega)]

theorem map_saveAnswerState_true (as_ : List Answer) :
    as_.map (saveAnswerState true) =
      List.replicate as_.length
        ⟨AnimValue.ofValue 0, AnimValue.ofValue 0, AnimValue.ofValue 0⟩ := by
  induction as_ with
  | nil => rfl
  | cons a as_ ih => simp [saveAnswerState, ih, List.replicate]

theorem startAnimData_replicate (can : Bool) (d : AnswerAnimation) :
    ∀ (as_ : List Answer) (n : Nat), as_.length = n →
      startAnimData can as_ (List.replicate n d)
        = as_.map fun a => startAnswerAnimation can a d := by
  intro as_
  induction as_ with
  | nil =>
    intro n h
    rw [← h]
    rfl
  | cons a as_ ih =>
    intro n h
    cases n with
    | zero => simp at h
    | succ n =>
      rw [List.replicate]
      simp [startAnimData, ih n (by simpa using h)]

/-! Field-level facts about updateAnswerVotesFromOriginal and the zip. -/

theorem uavfo_votes (can : Bool) (mv : Nat) (a : Answer) (o : PollAnswer)
    (p : Nat) : (updateAnswerVotesFromOriginal can mv a o p).votes = o.votes :=
  rfl

theorem uavfo_option (can : Bool) (mv : Nat) (a : Answer) (o : PollAnswer)
    (p : Nat) :
    (updateAnswerVotesFromOriginal can mv a o p).option = a.option := by
  rw [updateAnswerVotesFromOriginal]
  cases can with
  | false =>
    by_cases h : a.votesPercentString.isNone || a.votesPercent != p <;> simp [h]
  | true => simp

theorem uavfo_filling (can : Bool) (mv : Nat) (a : Answer) (o : PollAnswer)
    (p : Nat) :
    (updateAnswerVotesFromOriginal can mv a o p).filling
      = (o.votes : ℚ) / (mv : ℚ) :=
  rfl

theorem uavfo_percent_false (mv : Nat) (a : Answer) (o : PollAnswer) (p : Nat) :
    (updateAnswerVotesFromOriginal false mv a o p).votesPercent = p := by
  rw [updateAnswerVotesFromOriginal]
  by_cases h : a.votesPercentString.isNone || a.votesPercent != p
  · simp [h]
  · simp only [Bool.false_eq_true, if_false, if_neg h]
    rw [Bool.or_eq_true, not_or] at h
    have := h.2
    simpa using this

theorem zipWith3_map_votes (can : Bool) (mv : Nat) :
    ∀ (as_ : List Answer) (os : List PollAnswer) (ps : List Nat),
      as_.length = os.length → os.length = ps.length →
      (List.zipWith3 (updateAnswerVotesFromOriginal can mv) as_ os ps).map
        Answer.votes = os.map PollAnswer.votes := by
  intro as_
  induction as_ with
  | nil =>
    intro os ps h1 _
    have : os = [] := List.length_eq_zero.mp h1.symm
    simp [this, List.zipWith3]
  | cons a as_ ih =>
    intro os ps h1 h2
    cases os with
    | nil => simp at h1
    | cons o os =>
      cases ps with
      | nil => simp at h2
      | cons p ps =>
        simp only [List.zipWith3, List.map_cons]
        rw [uavfo_votes, ih os ps (by simpa using h1) (by simpa using h2)]

theorem zipWith3_map_option (can : Bool) (mv : Nat) :
    ∀ (as_ : List Answer) (os : List PollAnswer) (ps : List Nat),
      as_.length = os.length → os.length = ps.length →
      (List.zipWith3 (updateAnswerVotesFromOriginal can mv) as_ os ps).map
        Answer.option = as_.map Answer.option := by
  intro as_
  induction as_ with
  | nil => intro os ps _ _; simp [List.zipWith3]
  | cons a as_ ih =>
    intro os ps h1 h2
    cases os with
    | nil => simp at h1
    | cons o os =>
      cases ps with
      | nil => simp at h2
      | cons p ps =>
        simp only [List.zipWith3, List.map_cons]
        rw [uavfo_option, ih os ps (by simpa using h1) (by simpa using h2)]

theorem zipWith3_map_filling (can : Bool) (mv : Nat) :
    ∀ (as_ : List Answer) (os : List PollAnswer) (ps : List Nat),
      as_.length = os.length → os.length = ps.length →
      (List.zipWith3 (updateAnswerVotesFromOriginal can mv) as_ os ps).map
        Answer.filling = os.map fun o => (o.votes : ℚ) / (mv : ℚ) := by
  intro as_
  induction as_ with
  | nil =>
    intro os ps h1 _
    have : os = [] := List.length_eq_zero.mp h1.symm
    simp [this, List.zipWith3]
  | cons a as_ ih =>
    intro os ps h1 h2
    cases os with
    | nil => simp at h1
    | cons o os =>
      cases ps with
      | nil => simp at h2
      | cons p ps =>
        simp only [List.zipWith3, List.map_cons]
        rw [uavfo_filling, ih os ps (by simpa using h1) (by simpa using h2)]

theorem zipWith3_map_percent_false (mv : Nat) :
    ∀ (as_ : List Answer) (os : List PollAnswer) (ps : List Nat),
      as_.length = os.length → os.length = ps.length →
      (List.zipWith3 (updateAnswerVotesFromOriginal false mv) as_ os ps).map
        Answer.votesPercent = ps := by
  intro as_
  induction as_ with
  | nil =>
    intro os ps h1 h2
    have ho : os = [] := List.length_eq_zero.mp h1.symm
    have hp : ps = [] := by
      rw [ho] at h2
      exact List.length_eq_zero.mp h2.symm
    simp [ho, hp, List.zipWith3]
  | cons a as_ ih =>
    intro os ps h1 h2
    cases os with
    | nil => simp at h1
    | cons o os =>
      cases ps with
      | nil => simp at h2
      | cons p ps =>
        simp only [List.zipWith3, List.map_cons]
        rw [uavfo_percent_false, ih os ps (by simpa using h1) (by simpa using h2)]

theorem zipWith3_length_eq (can : Bool) (mv : Nat)
    (as_ : List Answer) (os : List PollAnswer) (ps : List Nat)
    (h1 : as_.length = os.length) (h2 : os.length = ps.length) :
    (List.zipWith3 (updateAnswerVotesFromOriginal can mv) as_ os ps).length
      = as_.length := by
  have := congrArg List.length
    (zipWith3_map_option can mv as_ os ps h1 h2)
  simpa using this

/-- Claim C5: a change in the number of options bypasses animation:
checkAnimationStart reports false, the answer list is rebuilt from the poll
data with the new values applied directly, and any in-flight animation is
silently discarded. -/
theorem claim5_structural_bypass (s : HistoryPollState) (poll : PollData)
    (hv : s.pollVersion ≠ poll.version)
    (hlen : poll.answers.length ≠ s.answers.length) :
    (checkAnimationStart s poll).1 = false ∧
    (updateTexts s poll).answersAnimation = none ∧
    (updateTexts s poll).answers.map Answer.option
      = poll.answers.map PollAnswer.option ∧
    (updateTexts s poll).answers.map Answer.votes
      = poll.answers.map PollAnswer.votes := by
  have hchk0 : (checkAnimationStart s poll).1 = false := by
    rw [checkAnimationStart_false_len s poll hlen]
  have hopt_ne : s.answers.map Answer.option
      ≠ poll.answers.map PollAnswer.option := by
    intro h
    have hlen2 := congrArg List.length h
    rw [List.length_map, List.length_map] at hlen2
    exact hlen hlen2.symm
  have e1 : updateTexts s poll =
      updateVotes (updateAnswers
        { s with pollVersion := poll.version, closed := poll.closed } poll)
        poll := by
    rw [updateTexts_eq s poll hv,
      checkAnimationStart_false_len { s with pollVersion := poll.version }
        poll hlen]
    rfl
  have e2 : updateAnswers
      { s with pollVersion := poll.version, closed := poll.closed } poll =
      { s with
        pollVersion := poll.version
        closed := poll.closed
        answers := poll.answers.map Answer.ofOriginal
        answersAnimation := none } :=
    updateAnswers_rebuild
      { s with pollVersion := poll.version, closed := poll.closed } poll hopt_ne
  rw [e1, e2]
  have hmaplen : (poll.answers.map Answer.ofOriginal).length
      = poll.answers.length := List.length_map _ _
  have hmapopt : (poll.answers.map Answer.ofOriginal).map Answer.option
      = poll.answers.map PollAnswer.option := by
    rw [List.map_map]
    rfl
  by_cases hne : poll.answers = []
  · rw [updateVotes, updateAnswerVotes_skip _ poll (Or.inr hne)]
    refine ⟨hchk0, rfl, ?_, ?_⟩
    · rw [updateTotalVotes]
      exact hmapopt
    · rw [updateTotalVotes]
      simp [hne]
  · rw [updateVotes, updateAnswerVotes_run _ poll (by simpa using hmaplen.symm)
      hne]
    have hps : (countNicePercent (poll.answers.map PollAnswer.votes)
        (max 1 poll.totalVoters)).length = poll.answers.length := by
      rw [countNicePercent_length, List.length_map]
    refine ⟨hchk0, rfl, ?_, ?_⟩
    · rw [updateTotalVotes]
      rw [zipWith3_map_option _ _ _ _ _ (by simpa using hmaplen)
        (by rw [hps])]
      exact hmapopt
    · rw [updateTotalVotes]
      rw [zipWith3_map_votes _ _ _ _ _ (by simpa using hmaplen)
        (by rw [hps])]

/-- Claim C5 witness: a two-option poll replacing a one-option view. -/
theorem claim5_witness :
    (checkAnimationStart
        { pollVersion := 0, closed := false, voted := false, totalVotes := 0
          answers := [{ option := 7, votes := 1, votesPercent := 100
                        votesPercentString := some 100, filling := 1 }]
          answersAnimation := some
            { data := [{ percent := AnimValue.ofValue 100
                         filling := AnimValue.ofValue 1
                         opacity := AnimValue.ofValue 1 }]
              progressFrom := 0, progressTo := 1, progressActive := true } }
        { version := 1, closed := false, votedFlag := false, totalVoters := 3
          answers := [{ option := 7, votes := 1 }, { option := 8, votes := 2 }]
        }).1 = false ∧
    (updateTexts
        { pollVersion := 0, closed := false, voted := false, totalVotes := 0
          answers := [{ option := 7, votes := 1, votesPercent := 100
                        votesPercentString := some 100, filling := 1 }]
          answersAnimation := some
            { data := [{ percent := AnimValue.ofValue 100
                         filling := AnimValue.ofValue 1
                         opacity := AnimValue.ofValue 1 }]
              progressFrom := 0, progressTo := 1, progressActive := true } }
        { version := 1, closed := false, votedFlag := false, totalVoters := 3
          answers := [{ option := 7, votes := 1 }, { option := 8, votes := 2 }]
        }).answersAnimation = none ∧
    (updateTexts
        { pollVersion := 0, closed := false, voted := false, totalVotes := 0
          answers := [{ option := 7, votes := 1, votesPercent := 100
                        votesPercentString := some 100, filling := 1 }]
          answersAnimation := some
            { data := [{ percent := AnimValue.ofValue 100
                         filling := AnimValue.ofValue 1
                         opacity := AnimValue.ofValue 1 }]
              progressFrom := 0, progressTo := 1, progressActive := true } }
        { version := 1, closed := false, votedFlag := false, totalVoters := 3
          answers := [{ option := 7, votes := 1 }, { option := 8, votes := 2 }]
        }).answers.map Answer.option =
      ([{ option := 7, votes := 1 }, { option := 8, votes := 2 }] :
        List PollAnswer).map PollAnswer.option ∧
    (updateTexts
        { pollVersion := 0, closed := false, voted := false, totalVotes := 0
          answers := [{ option := 7, votes := 1, votesPercent := 100
                        votesPercentString := some 100, filling := 1 }]
          answersAnimation := some
            { data := [{ percent := AnimValue.ofValue 100
                         filling := AnimValue.ofValue 1
                         opacity := AnimValue.ofValue 1 }]
              progressFrom := 0, progressTo := 1, progressActive := true } }
        { version := 1, closed := false, votedFlag := false, totalVoters := 3
          answers := [{ option := 7, votes := 1 }, { option := 8, votes := 2 }]
        }).answers.map Answer.votes =
      ([{ option := 7, votes := 1 }, { option := 8, votes := 2 }] :
        List PollAnswer).map PollAnswer.votes :=
  claim5_structural_bypass _ _ (by decide) (by decide)

/-- A cannot-vote poll state with a freshly captured snapshot of constant
entries starts its animation toward the per-answer current values. -/
theorem startAnswersAnimation_false_replicate (s : HistoryPollState)
    (hcan : s.canVote = false) (d : AnswerAnimation) (n : Nat)
    (h : s.answersAnimation = some ⟨List.replicate n d, 0, 0, false⟩)
    (hn : s.answers.length = n) :
    startAnswersAnimation s =
      { s with
        answersAnimation := some
          ⟨s.answers.map (fun a => startAnswerAnimation false a d),
            0, 1, true⟩ } := by
  rw [startAnswersAnimation_some s _ h, hcan]
  rw [show (⟨List.replicate n d, 0, 0, false⟩ : AnswersAnimation).data
      = List.replicate n d from rfl]
  rw [startAnimData_replicate false d s.answers n hn]

/-- Claim C6: a flip of canVote (not-voted AND not-closed) with unchanged
votes and options still triggers a transition; for the can-to-cannot flip
every option animates percent from 0 to the computed percent, filling from
0 to the computed filling, and opacity from 0 to 1, over a progress
timeline started from 0 toward 1. -/
theorem claim6_eligibility_flip (s : HistoryPollState) (poll : PollData)
    (hv : s.pollVersion ≠ poll.version)
    (hopt : s.answers.map Answer.option = poll.answers.map PollAnswer.option)
    (hvotes : s.answers.map Answer.votes = poll.answers.map PollAnswer.votes)
    (hvoted : s.voted = false) (hclosed : s.closed = false)
    (hcannew : (!poll.votedFlag && !poll.closed) = false)
    (hanim : s.answersAnimation = none) (hne : poll.answers ≠ []) :
    ∃ anim, (updateTexts s poll).answersAnimation = some anim ∧
      anim.progressFrom = 0 ∧ anim.progressTo = 1 ∧
      anim.progressActive = true ∧
      anim.data = (updateTexts s poll).answers.map (fun a =>
        ⟨⟨0, (a.votesPercent : ℚ), 0⟩, ⟨0, a.filling, 0⟩, ⟨0, 1, 0⟩⟩) ∧
      (updateTexts s poll).answers.map Answer.votesPercent
        = countNicePercent (poll.answers.map PollAnswer.votes)
            (max 1 poll.totalVoters) ∧
      (updateTexts s poll).answers.map Answer.votes
        = poll.answers.map PollAnswer.votes := by
  have hlen : poll.answers.length = s.answers.length := by
    have h := congrArg List.length hopt
    rw [List.length_map, List.length_map] at h
    exact h.symm
  have hps_len : (countNicePercent (poll.answers.map PollAnswer.votes)
      (max 1 poll.totalVoters)).length = poll.answers.length := by
    rw [countNicePercent_length, List.length_map]
  have hres : ((({ s with pollVersion := poll.version } :
        HistoryPollState).canVote != (!poll.votedFlag && !poll.closed))
      || answerVotesChanged { s with pollVersion := poll.version } poll)
      = true := by
    simp [HistoryPollState.canVote, hvoted, hclosed, hcannew]
  have hcan1 : ({ s with pollVersion := poll.version } :
      HistoryPollState).canVote = true := by
    simp [HistoryPollState.canVote, hvoted, hclosed]
  have e2 : saveStateInAnimation { s with pollVersion := poll.version } =
      { s with
        pollVersion := poll.version
        answersAnimation := some
          ⟨List.replicate s.answers.length
              ⟨AnimValue.ofValue 0, AnimValue.ofValue 0, AnimValue.ofValue 0⟩,
            0, 0, false⟩ } := by
    rw [saveStateInAnimation_none { s with pollVersion := poll.version } hanim,
      hcan1, map_saveAnswerState_true]
  have e1 : updateTexts s poll =
      startAnswersAnimation (updateVotes (updateAnswers
        { s with
          pollVersion := poll.version
          closed := poll.closed
          answersAnimation := some
            ⟨List.replicate s.answers.length
                ⟨AnimValue.ofValue 0, AnimValue.ofValue 0,
                  AnimValue.ofValue 0⟩,
              0, 0, false⟩ } poll) poll) := by
    rw [updateTexts_eq s poll hv,
      checkAnimationStart_true { s with pollVersion := poll.version } poll
        hlen hres, e2]
    rfl
  have e3 : updateAnswers
      { s with
        pollVersion := poll.version
        closed := poll.closed
        answersAnimation := some
          ⟨List.replicate s.answers.length
              ⟨AnimValue.ofValue 0, AnimValue.ofValue 0, AnimValue.ofValue 0⟩,
            0, 0, false⟩ } poll =
      { s with
        pollVersion := poll.version
        closed := poll.closed
        answersAnimation := some
          ⟨List.replicate s.answers.length
              ⟨AnimValue.ofValue 0, AnimValue.ofValue 0, AnimValue.ofValue 0⟩,
            0, 0, false⟩ } :=
    updateAnswers_same _ poll hopt
  have hcan4 : ({ s with
      pollVersion := poll.version
      closed := poll.closed
      voted := poll.votedFlag
      answersAnimation := some
        ⟨List.replicate s.answers.length
            ⟨AnimValue.ofValue 0, AnimValue.ofValue 0, AnimValue.ofValue 0⟩,
          0, 0, false⟩ } : HistoryPollState).canVote = false := hcannew
  have e4 : updateVotes
      { s with
        pollVersion := poll.version
        closed := poll.closed
        answersAnimation := some
          ⟨List.replicate s.answers.length
              ⟨AnimValue.ofValue 0, AnimValue.ofValue 0, AnimValue.ofValue 0⟩,
            0, 0, false⟩ } poll =
      { s with
        pollVersion := poll.version
        closed := poll.closed
        voted := poll.votedFlag
        totalVotes := poll.totalVoters
        answers := List.zipWith3
          (updateAnswerVotesFromOriginal false
            (max 1 ((poll.answers.map PollAnswer.votes).foldr max 0)))
          s.answers poll.answers
          (countNicePercent (poll.answers.map PollAnswer.votes)
            (max 1 poll.totalVoters))
        answersAnimation := some
          ⟨List.replicate s.answers.length
              ⟨AnimValue.ofValue 0, AnimValue.ofValue 0, AnimValue.ofValue 0⟩,
            0, 0, false⟩ } := by
    rw [updateVotes,
      updateAnswerVotes_run
        { s with
          pollVersion := poll.version
          closed := poll.closed
          voted := poll.votedFlag
          answersAnimation := some
            ⟨List.replicate s.answers.length
                ⟨AnimValue.ofValue 0, AnimValue.ofValue 0,
                  AnimValue.ofValue 0⟩,
              0, 0, false⟩ } poll hlen hne,
      hcan4]
    rfl
  have hZlen : (List.zipWith3
      (updateAnswerVotesFromOriginal false
        (max 1 ((poll.answers.map PollAnswer.votes).foldr max 0)))
      s.answers poll.answers
      (countNicePercent (poll.answers.map PollAnswer.votes)
        (max 1 poll.totalVoters))).length = s.answers.length :=
    zipWith3_length_eq false _ s.answers poll.answers _ hlen.symm
      (by rw [hps_len])
  have e5 : startAnswersAnimation
      { s with
        pollVersion := poll.version
        closed := poll.closed
        voted := poll.votedFlag
        totalVotes := poll.totalVoters
        answers := List.zipWith3
          (updateAnswerVotesFromOriginal false
            (max 1 ((poll.answers.map PollAnswer.votes).foldr max 0)))
          s.answers poll.answers
          (countNicePercent (poll.answers.map PollAnswer.votes)
            (max 1 poll.totalVoters))
        answersAnimation := some
          ⟨List.replicate s.answers.length
              ⟨AnimValue.ofValue 0, AnimValue.ofValue 0, AnimValue.ofValue 0⟩,
            0, 0, false⟩ } =
      { s with
        pollVersion := poll.version
        closed := poll.closed
        voted := poll.votedFlag
        totalVotes := poll.totalVoters
        answers := List.zipWith3
          (updateAnswerVotesFromOriginal false
            (max 1 ((poll.answers.map PollAnswer.votes).foldr max 0)))
          s.answers poll.answers
          (countNicePercent (poll.answers.map PollAnswer.votes)
            (max 1 poll.totalVoters))
        answersAnimation := some
          ⟨(List.zipWith3
              (updateAnswerVotesFromOriginal false
                (max 1 ((poll.answers.map PollAnswer.votes).foldr max 0)))
              s.answers poll.answers
              (countNicePercent (poll.answers.map PollAnswer.votes)
                (max 1 poll.totalVoters))).map
            (fun a => startAnswerAnimation false a
              ⟨AnimValue.ofValue 0, AnimValue.ofValue 0, AnimValue.ofValue 0⟩),
            0, 1, true⟩ } := by
    exact startAnswersAnimation_false_replicate
      { s with
        pollVersion := poll.version
        closed := poll.closed
        voted := poll.votedFlag
        totalVotes := poll.totalVoters
        answers := List.zipWith3
          (updateAnswerVotesFromOriginal false
            (max 1 ((poll.answers.map PollAnswer.votes).foldr max 0)))
          s.answers poll.answers
          (countNicePercent (poll.answers.map PollAnswer.votes)
            (max 1 poll.totalVoters))
        answersAnimation := some
          ⟨List.replicate s.answers.length
              ⟨AnimValue.ofValue 0, AnimValue.ofValue 0, AnimValue.ofValue 0⟩,
            0, 0, false⟩ }
      hcannew
      ⟨AnimValue.ofValue 0, AnimValue.ofValue 0, AnimValue.ofValue 0⟩
      s.answers.length rfl hZlen
  have hfinal : updateTexts s poll =
      { s with
        pollVersion := poll.version
        closed := poll.closed
        voted := poll.votedFlag
        totalVotes := poll.totalVoters
        answers := List.zipWith3
          (updateAnswerVotesFromOriginal false
            (max 1 ((poll.answers.map PollAnswer.votes).foldr max 0)))
          s.answers poll.answers
          (countNicePercent (poll.answers.map PollAnswer.votes)
            (max 1 poll.totalVoters))
        answersAnimation := some
          ⟨(List.zipWith3
              (updateAnswerVotesFromOriginal false
                (max 1 ((poll.answers.map PollAnswer.votes).foldr max 0)))
              s.answers poll.answers
              (countNicePercent (poll.answers.map PollAnswer.votes)
                (max 1 poll.totalVoters))).map
            (fun a => startAnswerAnimation false a
              ⟨AnimValue.ofValue 0, AnimValue.ofValue 0, AnimValue.ofValue 0⟩),
            0, 1, true⟩ } := by
    rw [e1, e3, e4, e5]
  refine ⟨⟨(List.zipWith3
          (updateAnswerVotesFromOriginal false
            (max 1 ((poll.answers.map PollAnswer.votes).foldr max 0)))
          s.answers poll.answers
          (countNicePercent (poll.answers.map PollAnswer.votes)
            (max 1 poll.totalVoters))).map
      (fun a => startAnswerAnimation false a
        ⟨AnimValue.ofValue 0, AnimValue.ofValue 0, AnimValue.ofValue 0⟩),
      0, 1, true⟩, ?_, rfl, rfl, rfl, ?_, ?_, ?_⟩
  · rw [hfinal]
  · rw [hfinal]
    rfl
  · rw [hfinal]
    exact zipWith3_map_percent_false _ s.answers poll.answers _ hlen.symm
      (by rw [hps_len])
  · rw [hfinal]
    exact zipWith3_map_votes false _ s.answers poll.answers _ hlen.symm
      (by rw [hps_len])

/-- Claim C6 witness: an open un-voted one-option poll closing with
unchanged votes. -/
theorem claim6_witness :
    ∃ anim, (updateTexts
        { pollVersion := 0, closed := false, voted := false, totalVotes := 0
          answers := [{ option := 7, votes := 1, votesPercent := 0
                        votesPercentString := none, filling := 1 }]
          answersAnimation := none }
        { version := 1, closed := true, votedFlag := false, totalVoters := 1
          answers := [{ option := 7, votes := 1 }] }).answersAnimation
        = some anim ∧
      anim.progressFrom = 0 ∧ anim.progressTo = 1 ∧
      anim.progressActive = true ∧
      anim.data = (updateTexts
        { pollVersion := 0, closed := false, voted := false, totalVotes := 0
          answers := [{ option := 7, votes := 1, votesPercent := 0
                        votesPercentString := none, filling := 1 }]
          answersAnimation := none }
        { version := 1, closed := true, votedFlag := false, totalVoters := 1
          answers := [{ option := 7, votes := 1 }] }).answers.map (fun a =>
        ⟨⟨0, (a.votesPercent : ℚ), 0⟩, ⟨0, a.filling, 0⟩, ⟨0, 1, 0⟩⟩) ∧
      (updateTexts
        { pollVersion := 0, closed := false, voted := false, totalVotes := 0
          answers := [{ option := 7, votes := 1, votesPercent := 0
                        votesPercentString := none, filling := 1 }]
          answersAnimation := none }
        { version := 1, closed := true, votedFlag := false, totalVoters := 1
          answers := [{ option := 7, votes := 1 }] }).answers.map
          Answer.votesPercent
        = countNicePercent
            (([{ option := 7, votes := 1 }] : List PollAnswer).map
              PollAnswer.votes) (max 1 1) ∧
      (updateTexts
        { pollVersion := 0, closed := false, voted := false, totalVotes := 0
          answers := [{ option := 7, votes := 1, votesPercent := 0
                        votesPercentString := none, filling := 1 }]
          answersAnimation := none }
        { version := 1, closed := true, votedFlag := false, totalVoters := 1
          answers := [{ option := 7, votes := 1 }] }).answers.map Answer.votes
        = ([{ option := 7, votes := 1 }] : List PollAnswer).map
            PollAnswer.votes :=
  claim6_eligibility_flip _ _ (by decide) (by decide) (by decide) rfl rfl
    (by decide) rfl (by decide)

/-- The start() pass over a snapshot taken in a cannot-vote state pairs each
new answer with the snapshot of the old answer at the same position. -/
theorem startAnswersAnimation_false_map (s : HistoryPollState)
    (hcan : s.canVote = false) (olds : List Answer)
    (h : s.answersAnimation = some ⟨olds.map (saveAnswerState false), 0, 0,
      false⟩)
    (hn : s.answers.length = olds.length) :
    startAnswersAnimation s =
      { s with
        answersAnimation := some
          ⟨List.zipWith (fun a old => startAnswerAnimation false a
              (saveAnswerState false old)) s.answers olds, 0, 1, true⟩ } := by
  rw [startAnswersAnimation_some s _ h, hcan]
  rw [show (⟨olds.map (saveAnswerState false), 0, 0, false⟩ :
      AnswersAnimation).data = olds.map (saveAnswerState false) from rfl]
  rw [startAnimData_eq_zipWith false s.answers _ (by rw [hn, List.length_map])]
  rw [List.zipWith_map_right]

/-- Claim C4 counterexample: with the viewer still able to vote (not voted,
poll open), a vote-count change creates an animation whose start filling is
0 even though the stored pre-change filling is 1, so the start values do
not equal the pre-change stored values in general. -/
theorem claim4_counterexample :
    (updateTexts
        { pollVersion := 0, closed := false, voted := false, totalVotes := 1
          answers := [{ option := 0, votes := 1, votesPercent := 0
                        votesPercentString := none, filling := 1 }]
          answersAnimation := none }
        { version := 1, closed := false, votedFlag := false, totalVoters := 2
          answers := [{ option := 0, votes := 2 }] }).answersAnimation
      = some ⟨[⟨⟨0, 0, 0⟩, ⟨0, 0, 0⟩, ⟨0, 0, 0⟩⟩], 0, 1, true⟩ ∧
    ([{ option := 0, votes := 1, votesPercent := 0
        votesPercentString := none, filling := 1 }] :
      List Answer).map Answer.filling = [1] ∧
    (0 : ℚ) ≠ 1 := by decide

/-- Claim C4 (amended): when the poll data version changes with an unchanged
option set, some vote count differing, no animation in flight, and the
viewer unable to vote both before and after the change, an animation object
is created whose per-option start values are the pre-change stored values
(percent, filling, opacity 1) and whose targets are the post-change
computed values, with a shared progress timeline started from 0 toward 1.
When the viewer could still vote, the start values are zeroed instead. -/
theorem claim4_animation_values (s : HistoryPollState) (poll : PollData)
    (hv : s.pollVersion ≠ poll.version)
    (hopt : s.answers.map Answer.option = poll.answers.map PollAnswer.option)
    (hvotes_ne : s.answers.map Answer.votes ≠ poll.answers.map PollAnswer.votes)
    (hcanold : (!s.voted && !s.closed) = false)
    (hcannew : (!poll.votedFlag && !poll.closed) = false)
    (hanim : s.answersAnimation = none) :
    ∃ anim, (updateTexts s poll).answersAnimation = some anim ∧
      anim.progressFrom = 0 ∧ anim.progressTo = 1 ∧
      anim.progressActive = true ∧
      anim.data = List.zipWith (fun (a old : Answer) =>
        (⟨⟨(old.votesPercent : ℚ), (a.votesPercent : ℚ),
            (old.votesPercent : ℚ)⟩,
          ⟨old.filling, a.filling, old.filling⟩,
          ⟨1, 1, 1⟩⟩ : AnswerAnimation))
        (updateTexts s poll).answers s.answers ∧
      (updateTexts s poll).answers.map Answer.votesPercent
        = countNicePercent (poll.answers.map PollAnswer.votes)
            (max 1 poll.totalVoters) ∧
      (updateTexts s poll).answers.map Answer.votes
        = poll.answers.map PollAnswer.votes := by
  have hlen : poll.answers.length = s.answers.length := by
    have h := congrArg List.length hopt
    rw [List.length_map, List.length_map] at h
    exact h.symm
  have hne : poll.answers ≠ [] := by
    intro h
    apply hvotes_ne
    have hs : s.answers = [] := by
      rw [h] at hlen
      exact List.length_eq_zero.mp hlen.symm
    rw [h, hs]
    rfl
  have hps_len : (countNicePercent (poll.answers.map PollAnswer.votes)
      (max 1 poll.totalVoters)).length = poll.answers.length := by
    rw [countNicePercent_length, List.length_map]
  have hisem : poll.answers.isEmpty = false := by
    cases hpa : poll.answers with
    | nil => exact absurd hpa hne
    | cons b r' => rfl
  have hcanold1 : ({ s with pollVersion := poll.version } :
      HistoryPollState).canVote = false := hcanold
  have hres : ((({ s with pollVersion := poll.version } :
        HistoryPollState).canVote != (!poll.votedFlag && !poll.closed))
      || answerVotesChanged { s with pollVersion := poll.version } poll)
      = true := by
    rw [hcanold1, hcannew]
    rw [answerVotesChanged]
    simp [hlen, hisem, hvotes_ne]
  have e2 : saveStateInAnimation { s with pollVersion := poll.version } =
      { s with
        pollVersion := poll.version
        answersAnimation := some ⟨s.answers.map (saveAnswerState false), 0, 0, false⟩ } := by
    rw [saveStateInAnimation_none { s with pollVersion := poll.version } hanim,
      hcanold1]
  have e1 : updateTexts s poll =
      startAnswersAnimation (updateVotes (updateAnswers
        { s with
          pollVersion := poll.version
          closed := poll.closed
          answersAnimation := some ⟨s.answers.map (saveAnswerState false), 0, 0, false⟩ } poll) poll) := by
    rw [updateTexts_eq s poll hv,
      checkAnimationStart_true { s with pollVersion := poll.version } poll
        hlen hres, e2]
    rfl
  have e3 : updateAnswers
      { s with
        pollVersion := poll.version
        closed := poll.closed
        answersAnimation := some ⟨s.answers.map (saveAnswerState false), 0, 0, false⟩ } poll =
      { s with
        pollVersion := poll.version
        closed := poll.closed
        answersAnimation := some ⟨s.answers.map (saveAnswerState false), 0, 0, false⟩ } :=
    updateAnswers_same _ poll hopt
  have hcan4 : ({ s with
      pollVersion := poll.version
      closed := poll.closed
      voted := poll.votedFlag
      answersAnimation := some ⟨s.answers.map (saveAnswerState false), 0, 0, false⟩ } : HistoryPollState).canVote
      = false := hcannew
  have e4 : updateVotes
      { s with
        pollVersion := poll.version
        closed := poll.closed
        answersAnimation := some ⟨s.answers.map (saveAnswerState false), 0, 0, false⟩ } poll =
      { s with
        pollVersion := poll.version
        closed := poll.closed
        voted := poll.votedFlag
        totalVotes := poll.totalVoters
        answers := List.zipWith3
          (updateAnswerVotesFromOriginal false
            (max 1 ((poll.answers.map PollAnswer.votes).foldr max 0)))
          s.answers poll.answers
          (countNicePercent (poll.answers.map PollAnswer.votes)
            (max 1 poll.totalVoters))
        answersAnimation := some ⟨s.answers.map (saveAnswerState false), 0, 0, false⟩ } := by
    rw [updateVotes,
      updateAnswerVotes_run
        { s with
          pollVersion := poll.version
          closed := poll.closed
          voted := poll.votedFlag
          answersAnimation := some ⟨s.answers.map (saveAnswerState false), 0, 0, false⟩ } poll hlen hne,
      hcan4]
    rfl
  have hZlen : (List.zipWith3
          (updateAnswerVotesFromOriginal false
            (max 1 ((poll.answers.map PollAnswer.votes).foldr max 0)))
          s.answers poll.answers
          (countNicePercent (poll.answers.map PollAnswer.votes)
            (max 1 poll.totalVoters))).length = s.answers.length :=
    zipWith3_length_eq false _ s.answers poll.answers _ hlen.symm
      (by rw [hps_len])
  have e5 : startAnswersAnimation
      { s with
        pollVersion := poll.version
        closed := poll.closed
        voted := poll.votedFlag
        totalVotes := poll.totalVoters
        answers := List.zipWith3
          (updateAnswerVotesFromOriginal false
            (max 1 ((poll.answers.map PollAnswer.votes).foldr max 0)))
          s.answers poll.answers
          (countNicePercent (poll.answers.map PollAnswer.votes)
            (max 1 poll.totalVoters))
        answersAnimation := some ⟨s.answers.map (saveAnswerState false), 0, 0, false⟩ } =
      { s with
        pollVersion := poll.version
        closed := poll.closed
        voted := poll.votedFlag
        totalVotes := poll.totalVoters
        answers := List.zipWith3
          (updateAnswerVotesFromOriginal false
            (max 1 ((poll.answers.map PollAnswer.votes).foldr max 0)))
          s.answers poll.answers
          (countNicePercent (poll.answers.map PollAnswer.votes)
            (max 1 poll.totalVoters))
        answersAnimation := some
          ⟨List.zipWith (fun a old => startAnswerAnimation false a
              (saveAnswerState false old))
            (List.zipWith3
          (updateAnswerVotesFromOriginal false
            (max 1 ((poll.answers.map PollAnswer.votes).foldr max 0)))
          s.answers poll.answers
          (countNicePercent (poll.answers.map PollAnswer.votes)
            (max 1 poll.totalVoters))) s.answers, 0, 1, true⟩ } := by
    exact startAnswersAnimation_false_map
      { s with
        pollVersion := poll.version
        closed := poll.closed
        voted := poll.votedFlag
        totalVotes := poll.totalVoters
        answers := List.zipWith3
          (updateAnswerVotesFromOriginal false
            (max 1 ((poll.answers.map PollAnswer.votes).foldr max 0)))
          s.answers poll.answers
          (countNicePercent (poll.answers.map PollAnswer.votes)
            (max 1 poll.totalVoters))
        answersAnimation := some ⟨s.answers.map (saveAnswerState false), 0, 0, false⟩ }
      hcannew s.answers rfl hZlen
  have hfinal : updateTexts s poll =
      { s with
        pollVersion := poll.version
        closed := poll.closed
        voted := poll.votedFlag
        totalVotes := poll.totalVoters
        answers := List.zipWith3
          (updateAnswerVotesFromOriginal false
            (max 1 ((poll.answers.map PollAnswer.votes).foldr max 0)))
          s.answers poll.answers
          (countNicePercent (poll.answers.map PollAnswer.votes)
            (max 1 poll.totalVoters))
        answersAnimation := some
          ⟨List.zipWith (fun a old => startAnswerAnimation false a
              (saveAnswerState false old))
            (List.zipWith3
          (updateAnswerVotesFromOriginal false
            (max 1 ((poll.answers.map PollAnswer.votes).foldr max 0)))
          s.answers poll.answers
          (countNicePercent (poll.answers.map PollAnswer.votes)
            (max 1 poll.totalVoters))) s.answers, 0, 1, true⟩ } := by
    rw [e1, e3, e4, e5]
  refine ⟨⟨List.zipWith (fun a old => startAnswerAnimation false a
      (saveAnswerState false old))
      (List.zipWith3
          (updateAnswerVotesFromOriginal false
            (max 1 ((poll.answers.map PollAnswer.votes).foldr max 0)))
          s.answers poll.answers
          (countNicePercent (poll.answers.map PollAnswer.votes)
            (max 1 poll.totalVoters))) s.answers, 0, 1, true⟩, ?_, rfl, rfl, rfl, ?_, ?_, ?_⟩
  · rw [hfinal]
  · rw [hfinal]
    rfl
  · rw [hfinal]
    exact zipWith3_map_percent_false _ s.answers poll.answers _ hlen.symm
      (by rw [hps_len])
  · rw [hfinal]
    exact zipWith3_map_votes false _ s.answers poll.answers _ hlen.symm
      (by rw [hps_len])

/-- Claim C4 witness: a voted two-option poll receiving one more vote. -/
theorem claim4_witness :
    ∃ anim, (updateTexts
        { pollVersion := 0, closed := false, voted := true, totalVotes := 2
          answers := [{ option := 1, votes := 1, votesPercent := 50
                        votesPercentString := some 50, filling := 1 },
                      { option := 2, votes := 1, votesPercent := 50
                        votesPercentString := some 50, filling := 1 }]
          answersAnimation := none }
        { version := 1, closed := false, votedFlag := true, totalVoters := 3
          answers := [{ option := 1, votes := 2 }, { option := 2, votes := 1 }]
        }).answersAnimation = some anim ∧
      anim.progressFrom = 0 ∧ anim.progressTo = 1 ∧
      anim.progressActive = true ∧
      anim.data = List.zipWith (fun (a old : Answer) =>
        (⟨⟨(old.votesPercent : ℚ), (a.votesPercent : ℚ),
            (old.votesPercent : ℚ)⟩,
          ⟨old.filling, a.filling, old.filling⟩,
          ⟨1, 1, 1⟩⟩ : AnswerAnimation))
        (updateTexts
          { pollVersion := 0, closed := false, voted := true, totalVotes := 2
            answers := [{ option := 1, votes := 1, votesPercent := 50
                          votesPercentString := some 50, filling := 1 },
                        { option := 2, votes := 1, votesPercent := 50
                          votesPercentString := some 50, filling := 1 }]
            answersAnimation := none }
          { version := 1, closed := false, votedFlag := true, totalVoters := 3
            answers := [{ option := 1, votes := 2 },
                        { option := 2, votes := 1 }] }).answers
        [{ option := 1, votes := 1, votesPercent := 50
           votesPercentString := some 50, filling := 1 },
         { option := 2, votes := 1, votesPercent := 50
           votesPercentString := some 50, filling := 1 }] ∧
      (updateTexts
        { pollVersion := 0, closed := false, voted := true, totalVotes := 2
          answers := [{ option := 1, votes := 1, votesPercent := 50
                        votesPercentString := some 50, filling := 1 },
                      { option := 2, votes := 1, votesPercent := 50
                        votesPercentString := some 50, filling := 1 }]
          answersAnimation := none }
        { version := 1, closed := false, votedFlag := true, totalVoters := 3
          answers := [{ option := 1, votes := 2 }, { option := 2, votes := 1 }]
        }).answers.map Answer.votesPercent
        = countNicePercent
            (([{ option := 1, votes := 2 }, { option := 2, votes := 1 }] :
              List PollAnswer).map PollAnswer.votes) (max 1 3) ∧
      (updateTexts
        { pollVersion := 0, closed := false, voted := true, totalVotes := 2
          answers := [{ option := 1, votes := 1, votesPercent := 50
                        votesPercentString := some 50, filling := 1 },
                      { option := 2, votes := 1, votesPercent := 50
                        votesPercentString := some 50, filling := 1 }]
          answersAnimation := none }
        { version := 1, closed := false, votedFlag := true, totalVoters := 3
          answers := [{ option := 1, votes := 2 }, { option := 2, votes := 1 }]
        }).answers.map Answer.votes
        = ([{ option := 1, votes := 2 }, { option := 2, votes := 1 }] :
            List PollAnswer).map PollAnswer.votes :=
  claim4_animation_values _ _ (by decide) (by decide) (by decide) rfl rfl rfl

/-! Preservation of the animation-size invariant through the pipeline. -/

theorem animSizeOk_iff (s : HistoryPollState) :
    animSizeOk s ↔ ∀ a : AnswersAnimation,
      s.answersAnimation = some a → a.data.length = s.answers.length := by
  cases h : s.answersAnimation with
  | none =>
    simp only [animSizeOk, h]
    simp
  | some a =>
    simp only [animSizeOk, h]
    simp

theorem animSizeOk_save (s : HistoryPollState) (h : animSizeOk s) :
    animSizeOk (saveStateInAnimation s) := by
  cases ha : s.answersAnimation with
  | none =>
    rw [saveStateInAnimation_none s ha, animSizeOk_iff]
    intro a' ha'
    have hx : ({ data := s.answers.map (saveAnswerState s.canVote)
                 progressFrom := 0, progressTo := 0
                 progressActive := false } : AnswersAnimation) = a' :=
      Option.some_injective _ ha'
    rw [← hx]
    exact List.length_map _ _
  | some a =>
    rw [saveStateInAnimation_some s a ha]
    exact h

theorem animSizeOk_chk (s : HistoryPollState) (poll : PollData)
    (h : animSizeOk s) : animSizeOk (checkAnimationStart s poll).2 := by
  rw [checkAnimationStart]
  by_cases h1 : (poll.answers.length != s.answers.length) = true
  · rw [if_pos h1]
    exact h
  · rw [if_neg h1]
    by_cases h2 : ((s.canVote != (!poll.votedFlag && !poll.closed))
        || answerVotesChanged s poll) = true
    · rw [if_pos h2]
      exact animSizeOk_save s h
    · rw [if_neg h2]
      exact h

theorem animSizeOk_updateAnswers (s : HistoryPollState) (poll : PollData)
    (h : animSizeOk s) : animSizeOk (updateAnswers s poll) := by
  by_cases h1 : s.answers.map Answer.option = poll.answers.map PollAnswer.option
  · rw [updateAnswers_same s poll h1]
    exact h
  · rw [updateAnswers_rebuild s poll h1, animSizeOk_iff]
    intro a ha
    exact Option.noConfusion ha

theorem animSizeOk_updateVotes (s : HistoryPollState) (poll : PollData)
    (h : animSizeOk s) : animSizeOk (updateVotes s poll) := by
  rw [updateVotes]
  by_cases h1 : poll.answers.length = s.answers.length ∧ poll.answers ≠ []
  · rw [updateAnswerVotes_run { s with voted := poll.votedFlag } poll h1.1 h1.2]
    rw [animSizeOk_iff] at h ⊢
    intro a ha
    have hd : a.data.length = s.answers.length := h a ha
    have hZ := zipWith3_length_eq
      ({ s with voted := poll.votedFlag } : HistoryPollState).canVote
      (max 1 ((poll.answers.map PollAnswer.votes).foldr max 0))
      s.answers poll.answers
      (countNicePercent (poll.answers.map PollAnswer.votes)
        (max 1 poll.totalVoters))
      h1.1.symm
      (by rw [countNicePercent_length, List.length_map])
    exact hd.trans hZ.symm
  · rw [updateAnswerVotes_skip { s with voted := poll.votedFlag } poll]
    · exact h
    · rcases not_and_or.mp h1 with h2 | h2
      · exact Or.inl h2
      · exact Or.inr (not_not.mp h2)

theorem animSizeOk_start (s : HistoryPollState) (h : animSizeOk s) :
    animSizeOk (startAnswersAnimation s) := by
  cases ha : s.answersAnimation with
  | none =>
    rw [startAnswersAnimation_none s ha]
    exact h
  | some a =>
    rw [startAnswersAnimation_some s a ha]
    rw [animSizeOk_iff] at h ⊢
    intro a' ha'
    have hx : ({ data := startAnimData s.canVote s.answers a.data
                 progressFrom := 0, progressTo := 1
                 progressActive := true } : AnswersAnimation) = a' :=
      Option.some_injective _ ha'
    rw [← hx]
    exact (startAnimData_length s.canVote s.answers a.data).trans (h a ha)

/-- Claim C7: whenever an answers-animation object exists after an update
pass, its number of per-option entries equals the number of stored answer
options, so the per-frame pairing of answers with animation entries by
index never runs off the end. -/
theorem claim7_anim_size_invariant (s : HistoryPollState) (poll : PollData)
    (h : animSizeOk s) : animSizeOk (updateTexts s poll) := by
  by_cases hv : s.pollVersion = poll.version
  · rw [updateTexts_eq_same s poll hv]
    exact h
  · rw [updateTexts_eq s poll hv]
    have h1 : animSizeOk { s with pollVersion := poll.version } := h
    have h2 := animSizeOk_chk { s with pollVersion := poll.version } poll h1
    have h3 : animSizeOk
        { (checkAnimationStart { s with pollVersion := poll.version } poll).2
          with closed := poll.closed } := by
      rw [animSizeOk_iff] at h2 ⊢
      intro a ha
      exact h2 a ha
    have h4 := animSizeOk_updateAnswers _ poll h3
    have h5 := animSizeOk_updateVotes _ poll h4
    by_cases hc : (checkAnimationStart { s with pollVersion := poll.version }
        poll).1 = true
    · rw [if_pos hc]
      exact animSizeOk_start _ h5
    · rw [if_neg hc]
      exact h5

/-- Claim C7 witness: an in-flight one-entry animation across a vote-count
update keeps one entry per option. -/
theorem claim7_witness :
    animSizeOk
      { pollVersion := 0, closed := false, voted := true, totalVotes := 1
        answers := [{ option := 3, votes := 1, votesPercent := 100
                      votesPercentString := some 100, filling := 1 }]
        answersAnimation := some
          { data := [{ percent := AnimValue.ofValue 100
                       filling := AnimValue.ofValue 1
                       opacity := AnimValue.ofValue 1 }]
            progressFrom := 0, progressTo := 1, progressActive := true } } ∧
    animSizeOk (updateTexts
      { pollVersion := 0, closed := false, voted := true, totalVotes := 1
        answers := [{ option := 3, votes := 1, votesPercent := 100
                      votesPercentString := some 100, filling := 1 }]
        answersAnimation := some
          { data := [{ percent := AnimValue.ofValue 100
                       filling := AnimValue.ofValue 1
                       opacity := AnimValue.ofValue 1 }]
            progressFrom := 0, progressTo := 1, progressActive := true } }
      { version := 1, closed := false, votedFlag := true, totalVoters := 2
        answers := [{ option := 3, votes := 2 }] }) :=
  ⟨by decide,
    claim7_anim_size_invariant _ _ (by decide)⟩
